import Mathlib

/-!
Verification of the ShaDa (shared data) persistence core of src/nvim/shada.c:
the record framing codec, the record reader and writer, and the per-category
merge algorithms.  Pure functions of the source are translated to Lean
functions; the streaming file reader is modelled as a byte list plus a
read-position counter; the per-type payload decoders and encoders that live
outside src/ (the mpack / unpacker library) appear either as abstract
function parameters (for known record types) or as definitions modelled from
the spec (for the framing integers and the object skipper).
-/

namespace Shada

/-! ## Big-endian byte helpers -/

/-- Big-endian byte encoding of a value into exactly n bytes
(least significant byte last), as produced on the wire by the framing codec. -/
def beBytes : Nat → Nat → List Nat
  | 0, _ => []
  | n + 1, v => beBytes n (v / 256) ++ [v % 256]

/-- Big-endian value of a byte list, as computed by be64toh on the
zero-padded buffer filled by msgpack_read_uint64 (shada.c:3120-3127). -/
def beVal (l : List Nat) : Nat := l.foldl (fun a b => a * 256 + b) 0

/-! ## Framing integer codec -/

/-- Modelled from the spec: the self-describing unsigned-integer encoder used
for the three per-record header integers (mpack_uint64 of the bundled mpack
library, which is not under src/).  Small values take one byte; larger ones
take 2/3/5/9 bytes with a one-byte type tag, big-endian on the wire. -/
def mpack_uint64 (v : Nat) : List Nat :=
  if v < 0x80 then [v]
  else if v < 0x100 then 0xCC :: beBytes 1 v
  else if v < 0x10000 then 0xCD :: beBytes 2 v
  else if v < 0x100000000 then 0xCE :: beBytes 4 v
  else 0xCF :: beBytes 8 v

/-- Result of the hand-rolled header-integer parse (msgpack_read_uint64,
shada.c:3071-3130): eofAtStart for zero bytes read, badInput for a
non-integer tag or for a file that ends inside the integer (both are
reported as NotShaDa by the caller), ok with the value and bytes consumed. -/
inductive MRUResult where
  | eofAtStart : MRUResult
  | badInput : MRUResult
  | ok (v : Nat) (consumed : Nat) : MRUResult
deriving DecidableEq

/-- Width of the fixed-size integer following a tag byte, per the switch in
msgpack_read_uint64 (shada.c:3101-3119); 0 for a tag that is not an
unsigned-integer tag. -/
def intWidth (b : Nat) : Nat :=
  if b = 0xCC then 1 else if b = 0xCD then 2
  else if b = 0xCE then 4 else if b = 0xCF then 8 else 0

/-- Pure core of msgpack_read_uint64 (shada.c:3071-3130) on the remaining
byte list: one byte is always consumed if available; tags 0xCC/0xCD/0xCE/0xCF
are followed by 1/2/4/8 big-endian bytes; bytes below 0x80 are fixnums. -/
def msgpackReadUint : List Nat → MRUResult
  | [] => .eofAtStart
  | b :: rest =>
    if b < 0x80 then .ok b 1
    else if intWidth b = 0 then .badInput
    else if rest.length < intWidth b then .badInput
    else .ok (beVal (rest.take (intWidth b))) (1 + intWidth b)

/-! ## Object skipper for the self-describing payload format -/

/-- Modelled from the spec: one step of the self-describing-format object
skipper (unpack_skip of the bundled mpack library, which is not under src/).
Given the tag byte and the bytes after it, returns the number of extra bytes
the object's head occupies beyond the tag and the number of further objects
(array/map elements) it contains, or none for an invalid tag or a truncated
head.  One-byte tags cover small ints, short strings, arrays and maps;
larger objects use a tag plus a 1/2/4-byte big-endian size. -/
def msgpackHead (b : Nat) (rest : List Nat) : Option (Nat × Nat) :=
  if b ≤ 0x7f then some (0, 0)
  else if b ≤ 0x8f then some (0, 2 * (b - 0x80))
  else if b ≤ 0x9f then some (0, b - 0x90)
  else if b ≤ 0xbf then some (b - 0xa0, 0)
  else if b = 0xc0 ∨ b = 0xc2 ∨ b = 0xc3 then some (0, 0)
  else if b = 0xc1 then none
  else if b = 0xc4 then (rest.head?).map (fun L => (1 + L, 0))
  else if b = 0xc5 then if 2 ≤ rest.length then some (2 + beVal (rest.take 2), 0) else none
  else if b = 0xc6 then if 4 ≤ rest.length then some (4 + beVal (rest.take 4), 0) else none
  else if b = 0xc7 then (rest.head?).map (fun L => (2 + L, 0))
  else if b = 0xc8 then if 2 ≤ rest.length then some (3 + beVal (rest.take 2), 0) else none
  else if b = 0xc9 then if 4 ≤ rest.length then some (5 + beVal (rest.take 4), 0) else none
  else if b = 0xca then some (4, 0)
  else if b = 0xcb then some (8, 0)
  else if b = 0xcc then some (1, 0)
  else if b = 0xcd then some (2, 0)
  else if b = 0xce then some (4, 0)
  else if b = 0xcf then some (8, 0)
  else if b ≤ 0xd3 then some (2 ^ (b - 0xd0), 0)
  else if b ≤ 0xd8 then some (1 + 2 ^ (b - 0xd4), 0)
  else if b = 0xd9 then (rest.head?).map (fun L => (1 + L, 0))
  else if b = 0xda then if 2 ≤ rest.length then some (2 + beVal (rest.take 2), 0) else none
  else if b = 0xdb then if 4 ≤ rest.length then some (4 + beVal (rest.take 4), 0) else none
  else if b = 0xdc then if 2 ≤ rest.length then some (2, beVal (rest.take 2)) else none
  else if b = 0xdd then if 4 ≤ rest.length then some (4, beVal (rest.take 4)) else none
  else if b = 0xde then if 2 ≤ rest.length then some (2, 2 * beVal (rest.take 2)) else none
  else if b = 0xdf then if 4 ≤ rest.length then some (4, 2 * beVal (rest.take 4)) else none
  else some (0, 0)

/-- Modelled from the spec: skip n objects of the self-describing format,
returning the bytes left over, or none on a parse error or truncation.  The
fuel argument bounds the recursion; every recursive call consumes at least
the tag byte, so fuel exceeding the byte count never runs out. -/
def msgpackSkipObjs : Nat → Nat → List Nat → Option (List Nat)
  | 0, _, _ => none
  | _ + 1, 0, l => some l
  | _ + 1, _ + 1, [] => none
  | fuel + 1, n + 1, b :: rest =>
    match msgpackHead b rest with
    | none => none
    | some (extra, objs) =>
      if rest.length < extra then none
      else msgpackSkipObjs fuel (n + objs) (rest.drop extra)

/-- Modelled from the spec: skip a single object (unpack_skip, used by the
reader both for the first-record "is this a ShaDa file?" heuristic and for
trailing unknown array elements). -/
def unpack_skip (l : List Nat) : Option (List Nat) :=
  msgpackSkipObjs (l.length + 2) 1 l

/-! ## The streaming reader state -/

/-- File reader state: the remaining bytes and the count of bytes read so
far (FileDescriptor.bytes_read, used for the initial_fpos of a record). -/
structure SDReader where
  bytes : List Nat
  bytes_read : Nat
deriving DecidableEq

/-- Advance the reader by k consumed bytes. -/
def SDReader.advance (r : SDReader) (k : Nat) : SDReader :=
  ⟨r.bytes.drop k, r.bytes_read + k⟩

/-- Largest value of a signed size on a 64-bit system; a length field above
it is rejected (shada.c:3188-3194). -/
def PTRDIFF_MAX : Nat := 2 ^ 63 - 1

/-- Numeric value of the last known entry type, kSDItemChange
(shada.c:160). -/
def SHADA_LAST_ENTRY : Nat := 11

/-- Possible results when reading a ShaDa file (ShaDaReadResult,
shada.c:163-169). -/
inductive ShaDaReadResult where
  | success : ShaDaReadResult
  | finished : ShaDaReadResult
  | readError : ShaDaReadResult
  | notShaDa : ShaDaReadResult
  | malformed : ShaDaReadResult
deriving DecidableEq

/-- Data carried by a decoded entry.  missing stands for kSDItemMissing with
every pointer cleared; unknownItem keeps the raw payload bytes
(unknown_item of the ShadaEntry union); knownItem holds the decoded payload
of a known type, whose decoding (unpack_keydict and friends, outside src/)
is abstracted into the type parameter K. -/
inductive ReadPayload (K : Type) where
  | missing : ReadPayload K
  | unknownItem (itype : Nat) (contents : List Nat) : ReadPayload K
  | knownItem (itype : Nat) (data : K) : ReadPayload K
deriving DecidableEq

/-- A decoded ShaDa entry as returned by the reader (ShadaEntry,
shada.c:231-277, restricted to the fields the framing layer handles). -/
structure ShadaEntryR (K : Type) where
  timestamp : Nat
  payload : ReadPayload K
deriving DecidableEq

/-- Outcome of processing one frame in shada_read_next_item: end of file at
a record boundary, a terminal error (carrying the entry's timestamp field
and the advanced reader), a skip that loops back to the start
(goto shada_read_next_item_start), or a successfully decoded entry. -/
inductive SrniStep (K : Type) where
  | finished : SrniStep K
  | fail (st : ShaDaReadResult) (ts : Nat) (r : SDReader) : SrniStep K
  | again (r : SDReader) : SrniStep K
  | done (e : ShadaEntryR K) (r : SDReader) : SrniStep K
deriving DecidableEq

/-- Skip condition for a record (shada.c:3211-3214): the type is disabled
by the flags (unknown types by the kSDReadUnknown bit, known types by their
own bit), or a nonzero size cap is exceeded. -/
def srniSkipDue (type_u64 length flags max_kbyte : Nat) : Bool :=
  (if SHADA_LAST_ENTRY < type_u64 then ! flags.testBit (SHADA_LAST_ENTRY + 1)
   else ! flags.testBit type_u64)
  || (decide (max_kbyte ≠ 0) && decide (max_kbyte * 1024 < length))

/-- First-record "is this a ShaDa file?" heuristic trigger
(shada.c:3220-3221): the record starts at position 0 and its type is the
newline byte (10) or an unknown type. -/
def srniFirstHeuristic (initial_fpos type_u64 : Nat) : Bool :=
  decide (initial_fpos = 0) &&
    (decide (type_u64 = 10) || decide (SHADA_LAST_ENTRY < type_u64))

/-- Body of shada_read_next_item after the three header integers have been
parsed (shada.c:3188-3578): the too-long check, the Missing-type check, the
skip logic with the first-record NotShaDa heuristic, the payload read, and
the unknown/known payload handling.  parseKnown abstracts the per-type
payload decoders (unpack_keydict and friends, outside src/); none means the
record is malformed.  r3 is the reader positioned just after the header. -/
def srniBody {K : Type} (parseKnown : Nat → List Nat → Option K)
    (initial_fpos type_u64 timestamp length : Nat) (r3 : SDReader)
    (flags max_kbyte : Nat) : SrniStep K :=
  if PTRDIFF_MAX < length then .fail .notShaDa 0 r3
  else if type_u64 = 0 then .fail .notShaDa timestamp r3
  else if srniSkipDue type_u64 length flags max_kbyte
      && ! srniFirstHeuristic initial_fpos type_u64 then
    if length ≤ r3.bytes.length then .again (r3.advance length)
    else .fail .notShaDa timestamp ⟨[], r3.bytes_read + r3.bytes.length⟩
  else if r3.bytes.length < length then
    .fail .notShaDa timestamp (r3.advance r3.bytes.length)
  else if srniSkipDue type_u64 length flags max_kbyte then
    if unpack_skip (r3.bytes.take length) = some [] then .again (r3.advance length)
    else .fail .notShaDa timestamp (r3.advance length)
  else if SHADA_LAST_ENTRY < type_u64 then
    if decide (initial_fpos = 0)
        && ! decide (unpack_skip (r3.bytes.take length) = some []) then
      .fail .notShaDa timestamp (r3.advance length)
    else
      .done ⟨timestamp, .unknownItem type_u64 (r3.bytes.take length)⟩ (r3.advance length)
  else
    match parseKnown type_u64 (r3.bytes.take length) with
    | some k => .done ⟨timestamp, .knownItem type_u64 k⟩ (r3.advance length)
    | none => .fail .malformed timestamp (r3.advance length)

/-- One frame of shada_read_next_item (shada.c:3147-3579): the end-of-file
check at a record boundary, then the three hand-parsed header integers
(type with EOF allowed, then timestamp and length with EOF forbidden),
then srniBody. -/
def srniStep {K : Type} (parseKnown : Nat → List Nat → Option K)
    (r : SDReader) (flags max_kbyte : Nat) : SrniStep K :=
  if r.bytes = [] then .finished
  else
    match msgpackReadUint r.bytes with
    | .eofAtStart => .finished
    | .badInput => .fail .notShaDa 0 r
    | .ok type_u64 c1 =>
      match msgpackReadUint (r.bytes.drop c1) with
      | .eofAtStart => .fail .notShaDa 0 (r.advance c1)
      | .badInput => .fail .notShaDa 0 (r.advance c1)
      | .ok timestamp c2 =>
        match msgpackReadUint (r.bytes.drop (c1 + c2)) with
        | .eofAtStart => .fail .notShaDa 0 (r.advance (c1 + c2))
        | .badInput => .fail .notShaDa 0 (r.advance (c1 + c2))
        | .ok length c3 =>
          srniBody parseKnown r.bytes_read type_u64 timestamp length
            (r.advance (c1 + c2 + c3)) flags max_kbyte

/-- Loop of shada_read_next_item: skipped frames jump back to the start.
The fuel bounds the recursion; every skipped frame consumes at least its
header bytes, so fuel exceeding the byte count never runs out (the fuel-0
branch is unreachable for the wrapper below). -/
def srniLoop {K : Type} (parseKnown : Nat → List Nat → Option K) :
    Nat → SDReader → Nat → Nat → ShaDaReadResult × ShadaEntryR K × SDReader
  | 0, r, _, _ => (.notShaDa, ⟨0, .missing⟩, r)
  | fuel + 1, r, flags, max_kbyte =>
    match srniStep parseKnown r flags max_kbyte with
    | .finished => (.finished, ⟨0, .missing⟩, r)
    | .fail st ts r2 => (st, ⟨ts, .missing⟩, r2)
    | .done e r2 => (.success, e, r2)
    | .again r2 => srniLoop parseKnown fuel r2 flags max_kbyte

/-- shada_read_next_item (shada.c:3147-3579): read the next entry from the
stream, skipping disabled and oversized records. -/
def shada_read_next_item {K : Type} (parseKnown : Nat → List Nat → Option K)
    (r : SDReader) (flags max_kbyte : Nat) :
    ShaDaReadResult × ShadaEntryR K × SDReader :=
  srniLoop parseKnown (r.bytes.length + 1) r flags max_kbyte

/-! ## Writing a single entry -/

/-- Payload bytes of an entry as serialized into the scratch buffer by
shada_pack_entry (shada.c:1358-1562): an unknown item's contents are
re-emitted verbatim (mpack_raw, shada.c:1383); known payload serialization
(mpack_map / mpack_array / ... , outside src/) is abstracted into
serializeKnown.  kSDItemMissing aborts in the source and never reaches the
packer; it is given the empty payload here. -/
def shada_pack_payload {K : Type} (serializeKnown : Nat → K → List Nat)
    (entry : ShadaEntryR K) : List Nat :=
  match entry.payload with
  | .missing => []
  | .unknownItem _ contents => contents
  | .knownItem t k => serializeKnown t k

/-- The type integer written for an entry (shada.c:1569-1573): the stored
original type for unknown items, the entry's own type otherwise. -/
def shada_pack_etype {K : Type} (entry : ShadaEntryR K) : Nat :=
  match entry.payload with
  | .missing => 0
  | .unknownItem t _ => t
  | .knownItem t _ => t

/-- shada_pack_entry (shada.c:1358-1588), restricted to the framing layer:
serialize the payload, then, unless a nonzero max_kbyte cap is exceeded,
emit type, timestamp, and - only when the payload is non-empty - the length
integer followed by the payload bytes (shada.c:1565-1578).  Returns the
bytes written. -/
def shada_pack_entry {K : Type} (serializeKnown : Nat → K → List Nat)
    (entry : ShadaEntryR K) (max_kbyte : Nat) : List Nat :=
  if max_kbyte = 0 ∨ (shada_pack_payload serializeKnown entry).length ≤ max_kbyte * 1024 then
    mpack_uint64 (shada_pack_etype entry) ++ (mpack_uint64 entry.timestamp ++
      (if 0 < (shada_pack_payload serializeKnown entry).length then
        mpack_uint64 (shada_pack_payload serializeKnown entry).length
          ++ shada_pack_payload serializeKnown entry
       else []))
  else []

/-! ## The write-merger slot comparison -/

/-- A ShaDa entry as held by the write merger: the numeric entry type
(0 = kSDItemMissing), the timestamp, and the per-category data. -/
structure WmsEntry (α : Type) where
  etype : Nat
  timestamp : Nat
  data : α
deriving DecidableEq

/-- ShadaEntry plus the ownership bit (PossiblyFreedShadaEntry,
shada.c:312-315). -/
structure PossiblyFreedShadaEntry (α : Type) where
  data : WmsEntry α
  can_free_entry : Bool
deriving DecidableEq

/-- The COMPARE_WITH_ENTRY macro of shada_read_when_writing
(shada.c:1763-1776): if the slot is occupied and its timestamp is greater
than or equal to the incoming entry's, the incoming file entry is freed and
the slot is kept; otherwise the slot is replaced by the incoming entry,
owned by the merger (can_free_entry true). -/
def compare_with_entry {α : Type} (wms_entry : PossiblyFreedShadaEntry α)
    (entry : WmsEntry α) : PossiblyFreedShadaEntry α :=
  if wms_entry.data.etype ≠ 0 ∧ entry.timestamp ≤ wms_entry.data.timestamp then
    wms_entry
  else ⟨entry, true⟩

/-! ## History merger (HMLL / HMS) -/

/-- The history payload of a ShadaEntry held in the history ring: timestamp
and the history string (the string is the ring's identity key). -/
structure HistData where
  timestamp : Nat
  hstring : String
deriving DecidableEq

/-- One node of the sized linked list (HMLListEntry, shada.c:280-285). -/
structure HMLLNode where
  data : HistData
  can_free_entry : Bool
deriving DecidableEq

/-- Index (counting from the front, 0 = first/oldest) of the node after
which a new entry with the given timestamp is inserted: the backward scan of
hms_insert (shada.c:712-718) stops at the last node whose timestamp is at
most the new entry's; none means insert at the front. -/
def hmll_find_insert_after : List HMLLNode → Nat → Option Nat
  | [], _ => none
  | x :: xs, ts =>
    match hmll_find_insert_after xs ts with
    | some i => some (i + 1)
    | none => if x.data.timestamp ≤ ts then some 0 else none

/-- Insert a node after the node at the given index (none = at the front),
per the pointer splicing of hmll_insert (shada.c:505-527). -/
def hmll_insert_at (l : List HMLLNode) (i : Option Nat) (x : HMLLNode) : List HMLLNode :=
  match i with
  | none => x :: l
  | some i => l.take (i + 1) ++ x :: l.drop (i + 1)

/-- hmll_insert (shada.c:483-527): if the list is full, the first (oldest)
node is removed first - and an insert-after pointer that pointed at it is
moved to the front - then the new node is spliced in. -/
def hmll_insert (size : Nat) (l : List HMLLNode) (afterIdx : Option Nat)
    (data : HistData) (can_free_entry : Bool) : List HMLLNode :=
  if l.length = size then
    let afterIdx2 : Option Nat :=
      match afterIdx with
      | some 0 => none
      | some (i + 1) => some i
      | none => none
    hmll_insert_at (l.drop 1) afterIdx2 ⟨data, can_free_entry⟩
  else hmll_insert_at l afterIdx ⟨data, can_free_entry⟩

/-- Lookup in the contained_entries map keyed by the history string
(pmap_ref in hms_insert, shada.c:692-693). -/
def hms_lookup : List HMLLNode → String → Option HMLLNode
  | [], _ => none
  | x :: xs, s => if x.data.hstring = s then some x else hms_lookup xs s

/-- Replace the node holding string s in place (the tie branch of
hms_insert, shada.c:698-707). -/
def hms_replace : List HMLLNode → String → HMLLNode → List HMLLNode
  | [], _, _ => []
  | x :: xs, s, y => if x.data.hstring = s then y :: xs else x :: hms_replace xs s y

/-- Remove the node holding string s (hmll_remove called from hms_insert,
shada.c:697). -/
def hms_erase : List HMLLNode → String → List HMLLNode
  | [], _ => []
  | x :: xs, s => if x.data.hstring = s then xs else x :: hms_erase xs s

/-- Core of hms_insert (shada.c:690-720), without the editor-history drain:
if the string is already present, the greater timestamp wins (remove the old
node and fall through to insertion); on an exact tie an entry that does not
come from the editor drain (do_iter false) replaces the node in place,
keeping the editor's bytes and ownership bit; otherwise the new entry is
ignored.  A genuinely new string is inserted at its timestamp position. -/
def hms_insert_core (size : Nat) (l : List HMLLNode) (e : HistData)
    (do_iter can_free_entry : Bool) : List HMLLNode :=
  match hms_lookup l e.hstring with
  | some existing_entry =>
    if existing_entry.data.timestamp < e.timestamp then
      let l2 := hms_erase l e.hstring
      hmll_insert size l2 (hmll_find_insert_after l2 e.timestamp) e can_free_entry
    else if do_iter = false ∧ e.timestamp = existing_entry.data.timestamp then
      hms_replace l e.hstring ⟨e, can_free_entry⟩
    else l
  | none =>
    hmll_insert size l (hmll_find_insert_after l e.timestamp) e can_free_entry

/-- State of one history merger (HistoryMergerState, shada.c:302-309):
the ring, its capacity, the reading flag, and the not-yet-drained editor
history entries (last_hist_entry plus the iterator's remainder, in
iteration order). -/
structure HistoryMergerState where
  hmll : List HMLLNode
  size : Nat
  reading : Bool
  pending : List HistData
deriving DecidableEq

/-- The editor-history drain of hms_insert (shada.c:678-689): before a
file-sourced entry with timestamp ts is inserted, all pending editor
entries with strictly smaller timestamps are inserted with do_iter false
and can_free_entry = reading. -/
def hms_drain_aux (size : Nat) (reading : Bool) (ts : Nat) :
    List HistData → List HMLLNode → List HistData × List HMLLNode
  | [], l => ([], l)
  | p :: ps, l =>
    if p.timestamp < ts then
      hms_drain_aux size reading ts ps (hms_insert_core size l p false reading)
    else (p :: ps, l)

/-- hms_insert (shada.c:674-720): optionally drain the editor history below
the entry's timestamp, then insert the entry itself. -/
def hms_insert (st : HistoryMergerState) (e : HistData)
    (do_iter can_free_entry : Bool) : HistoryMergerState :=
  let drained :=
    if do_iter then hms_drain_aux st.size st.reading e.timestamp st.pending st.hmll
    else (st.pending, st.hmll)
  { st with
    pending := drained.1
    hmll := hms_insert_core st.size drained.2 e do_iter can_free_entry }

/-! ## Jump list merging -/

/-- pos_T restricted to the fields marks_equal compares (shada.c:875-878). -/
structure PosT where
  lnum : Int
  col : Int
deriving DecidableEq

/-- marks_equal (shada.c:875-878). -/
def marks_equal (a b : PosT) : Bool :=
  decide (a.lnum = b.lnum) && decide (a.col = b.col)

/-- The filemark member of the ShadaEntry union (shada.c:236-240). -/
structure FilemarkData where
  name : Nat
  mark : PosT
  fname : String
deriving DecidableEq

/-- JUMPLISTSIZE, the fixed bound of jump and change lists.  Modelled from
the spec: the constant lives in mark_defs.h, which is not under src/; its
concrete value does not matter to the claims proved here. -/
def JUMPLISTSIZE : Nat := 100

/-- The backward duplicate scan of the kSDItemJump branch of
shada_read_when_writing (shada.c:1995-2004), walking the reversed list with
the current 1-based index: stop at the newest existing entry whose
timestamp is at most the new entry's; return -1 if it has the same position
and file name (the new entry is then dropped), the index otherwise; 0 when
every entry is strictly newer. -/
def jump_scan (e : WmsEntry FilemarkData) :
    List (PossiblyFreedShadaEntry FilemarkData) → Nat → Int
  | [], _ => 0
  | x :: xs, i =>
    if x.data.timestamp ≤ e.timestamp then
      if marks_equal x.data.data.mark e.data.mark
          && decide (x.data.data.fname = e.data.fname) then -1
      else (i : Int)
    else jump_scan e xs (i - 1)

/-- marklist_insert (shada.c:887-911), index adjustment only: for a full
list the insertion index is decremented (the oldest entry will be shifted
out); a new oldest entry (index 0) in a full list is refused with -1. -/
def marklist_insert_pos (jl_len : Nat) (i : Int) : Int :=
  if 0 < i then
    if jl_len = JUMPLISTSIZE then i - 1 else i
  else if i = 0 then
    if jl_len = JUMPLISTSIZE then -1 else 0
  else i

/-- The kSDItemJump branch of shada_read_when_writing (shada.c:1992-2019):
scan for a same-position duplicate, then insert through marklist_insert;
the stored entry is owned by the merger (can_free_entry true).  Returns the
updated wms->jumps array. -/
def srww_insert_jump (jumps : List (PossiblyFreedShadaEntry FilemarkData))
    (e : WmsEntry FilemarkData) : List (PossiblyFreedShadaEntry FilemarkData) :=
  let i0 : Int := jump_scan e jumps.reverse jumps.length
  let f : Int := marklist_insert_pos jumps.length i0
  if f = -1 then jumps
  else if jumps.length = JUMPLISTSIZE then
    (jumps.drop 1).take f.toNat ++ ⟨e, true⟩ :: jumps.drop (f.toNat + 1)
  else jumps.take f.toNat ++ ⟨e, true⟩ :: jumps.drop f.toNat

/-! ## Numbered-mark rotation -/

/-- Numeric entry type of kSDItemGlobalMark (shada.c:154). -/
def kSDItemGlobalMark : Nat := 7

/-- Set the mark-name character of a numbered-mark slot. -/
def set_filemark_name (m : PossiblyFreedShadaEntry FilemarkData) (c : Nat) :
    PossiblyFreedShadaEntry FilemarkData :=
  { m with data := { m.data with data := { m.data.data with name := c } } }

/-- The renaming loop of replace_numbered_mark (shada.c:2197-2201): every
occupied slot from idx up to the last-but-one is renamed to the digit of
the position it is about to be shifted into. -/
def rename_numbered_from (idx stop : Nat) :
    List (PossiblyFreedShadaEntry FilemarkData) → Nat →
      List (PossiblyFreedShadaEntry FilemarkData)
  | [], _ => []
  | m :: ms, i =>
    (if idx ≤ i ∧ i < stop ∧ m.data.etype = kSDItemGlobalMark
     then set_filemark_name m (48 + i + 1) else m)
      :: rename_numbered_from idx stop ms (i + 1)

/-- replace_numbered_mark (shada.c:2190-2207): free the last slot, rename
the slots from idx on, shift them one position towards the end (memmove),
and store the new mark at idx under the digit name of idx
(the character code 48 is the digit 0). -/
def replace_numbered_mark (marks : List (PossiblyFreedShadaEntry FilemarkData))
    (idx : Nat) (entry : PossiblyFreedShadaEntry FilemarkData) :
    List (PossiblyFreedShadaEntry FilemarkData) :=
  let renamed := rename_numbered_from idx (marks.length - 1) marks 0
  renamed.take idx ++ set_filemark_name entry (48 + idx)
    :: (renamed.drop idx).take (marks.length - 1 - idx)

/-! ## Registers -/

/-- yankreg_T restricted to the fields the claims need: the line count
(y_size) and the timestamp. -/
structure YankRegModel where
  y_size : Nat
  timestamp : Nat
deriving DecidableEq

/-- Motion type constants (MotionType of mark_defs.h, not under src/; only
their distinctness matters). -/
def kMTCharWise : Nat := 0

def kMTLineWise : Nat := 1

def kMTBlockWise : Nat := 2

/-- The kSDItemRegister branch of shada_read (shada.c:1058-1083): a record
with a motion type other than charwise/linewise/blockwise is freed and
skipped; without the force flag the record is freed and skipped when
op_reg_get returns NULL or an existing register at least as new; otherwise
the register described by the record is installed via op_reg_set.  The
editor's register table access (op_reg_get / op_reg_set, outside src/) is
abstracted: reg is what op_reg_get returns and the result is the register
value installed (none = record skipped, nothing installed). -/
def shada_read_register (force : Bool) (reg : Option YankRegModel)
    (rtype contents_size e_ts : Nat) : Option YankRegModel :=
  if rtype ≠ kMTCharWise ∧ rtype ≠ kMTLineWise ∧ rtype ≠ kMTBlockWise then none
  else if force then some ⟨contents_size, e_ts⟩
  else
    match reg with
    | none => none
    | some y => if e_ts ≤ y.timestamp then none else some ⟨contents_size, e_ts⟩

/-- An editor register as produced by op_global_reg_iter: name, line count
and timestamp. -/
structure EditorReg where
  name : Nat
  y_size : Nat
  timestamp : Nat
deriving DecidableEq

/-- shada_initialize_registers (shada.c:2145-2180), data selection only:
iterate the editor's registers and store each into its wms slot, skipping
those whose line count exceeds a non-negative max_reg_lines
(limit_reg_lines = max_reg_lines >= 0, shada.c:2149 and 2158-2160).
Returns the registers actually stored (slot indexing by op_reg_index is a
bijection and is abstracted away). -/
def shadaInitializeRegisters (regs : List EditorReg) (max_reg_lines : Int) :
    List EditorReg :=
  regs.filter (fun r => ! (decide (0 ≤ max_reg_lines)
    && decide ((r.y_size : Int) > max_reg_lines)))

/-! ## Write orchestration -/

/-- Possible results of shada_write (ShaDaWriteResult, shada.c:172-182). -/
inductive ShaDaWriteResult where
  | successful : ShaDaWriteResult
  | readNotShada : ShaDaWriteResult
  | failed : ShaDaWriteResult
  | ignError : ShaDaWriteResult
deriving DecidableEq

/-- The record loop of shada_read_when_writing (shada.c:1778-2021), with
the per-type merge handling of a successfully read entry abstracted into
process (sections 4.3-4.7 of the merge rules are modelled separately).
The status handling is from the source: Finished ends the loop with the
result so far; Malformed skips the record; NotShaDa makes the overall
result kSDWriteReadNotShada and stops; ReadError stops with the result so
far.  Fuel bounds the loop; each iteration consumes at least one byte, so
the wrapper below never exhausts it. -/
def srwwLoop {K W : Type} (parseKnown : Nat → List Nat → Option K)
    (process : W → ShadaEntryR K → W) :
    Nat → SDReader → Nat → Nat → W → ShaDaWriteResult × W
  | 0, _, _, _, wms => (.successful, wms)
  | fuel + 1, r, flags, max_kbyte, wms =>
    match shada_read_next_item parseKnown r flags max_kbyte with
    | (.finished, _, _) => (.successful, wms)
    | (.success, e, r2) => srwwLoop parseKnown process fuel r2 flags max_kbyte (process wms e)
    | (.malformed, _, r2) => srwwLoop parseKnown process fuel r2 flags max_kbyte wms
    | (.notShaDa, _, _) => (.readNotShada, wms)
    | (.readError, _, _) => (.successful, wms)

/-- shada_read_when_writing (shada.c:1752-2024): stream the previous file's
records into the write-merger state. -/
def shada_read_when_writing {K W : Type} (parseKnown : Nat → List Nat → Option K)
    (process : W → ShadaEntryR K → W) (r : SDReader) (flags max_kbyte : Nat)
    (wms : W) : ShaDaWriteResult × W :=
  srwwLoop parseKnown process (r.bytes.length + 1) r flags max_kbyte wms

/-- shada_write (shada.c:2271-2735), decision structure: the item size cap
comes from the shada 's' parameter (negative means unset, default 10); a
cap of zero returns success immediately and writes nothing at all.
Otherwise the header record is emitted first, then the body (buffer list,
variables, the merged categories and the pass-through records - their byte
production is abstracted into headerBytes and bodyBytes), and, when a
previous file is given, its records are merged; a NotShaDa result from that
merge pass is recorded but the write still completes.  Returns the result
and the bytes written. -/
def shada_write {K W : Type} (parseKnown : Nat → List Nat → Option K)
    (process : W → ShadaEntryR K → W) (flags : Nat)
    (headerBytes bodyBytes : List Nat) (sParam : Int)
    (sd_reader : Option SDReader) (wms0 : W) : ShaDaWriteResult × List Nat :=
  if (if sParam < 0 then (10 : Int) else sParam) = 0 then (.successful, [])
  else
    let max_kbyte : Nat := (if sParam < 0 then (10 : Int) else sParam).toNat
    let ret : ShaDaWriteResult :=
      match sd_reader with
      | none => .successful
      | some r => (shada_read_when_writing parseKnown process r flags max_kbyte wms0).1
    (ret, headerBytes ++ bodyBytes)

/-- The file system as shada_write_file sees it: the target ShaDa file and
the temporary file, each either absent or holding bytes. -/
structure ShadaFS where
  target : Option (List Nat)
  temp : Option (List Nat)
deriving DecidableEq

/-- shada_write_file (shada.c:2746-2929) for the merge path: when the
target exists it is opened for reading and a fresh temporary file receives
the new contents; the rename over the target happens only when shada_write
reports success and the target passes the ownership/writability checks
(abstracted into target_writable) - otherwise the temporary file is left
next to the untouched target.  When the target does not exist the write is
a no-merge write straight to the target. -/
def shada_write_file {K W : Type} (parseKnown : Nat → List Nat → Option K)
    (process : W → ShadaEntryR K → W) (flags : Nat)
    (headerBytes bodyBytes : List Nat) (sParam : Int) (wms0 : W)
    (fs : ShadaFS) (target_writable : Bool) : ShadaFS :=
  match fs.target with
  | none =>
    ⟨some (shada_write parseKnown process flags headerBytes bodyBytes sParam none wms0).2,
      none⟩
  | some prev =>
    let sw := shada_write parseKnown process flags headerBytes bodyBytes sParam
      (some ⟨prev, 0⟩) wms0
    if sw.1 = ShaDaWriteResult.successful ∧ target_writable then ⟨some sw.2, none⟩
    else ⟨some prev, some sw.2⟩

/-- Trivial known-payload decoder used for concrete evaluations: every
known-type payload is treated as malformed. -/
def trivialParse : Nat → List Nat → Option Unit := fun _ _ => none

/-- Trivial known-payload serializer used for concrete evaluations. -/
def trivialSer : Nat → Unit → List Nat := fun _ _ => []

/-- Trivial merge-processing step used for concrete evaluations. -/
def trivialProcess : Unit → ShadaEntryR Unit → Unit := fun _ _ => ()

/-- A stream whose first record is an unknown-type record (type 100) with a
1025-byte payload of zeros, followed by a well-formed Header record
(type 1, ts 0, payload [0x80], an empty fixmap).  With max_kbyte = 1 the
first record is oversized (1025 > 1024). -/
def oversizedFirstRecord : List Nat :=
  mpack_uint64 100 ++ (mpack_uint64 0 ++ (mpack_uint64 1025 ++
    (List.replicate 1025 0 ++ (mpack_uint64 1 ++ (mpack_uint64 0 ++
      (mpack_uint64 1 ++ [0x80]))))))

theorem length_beBytes (n v : Nat) : (beBytes n v).length = n := by
  induction n generalizing v with
  | zero => rfl
  | succ n ih => simp [beBytes, ih]

theorem beVal_append_singleton (l : List Nat) (b : Nat) :
    beVal (l ++ [b]) = beVal l * 256 + b := by
  simp [beVal, List.foldl_append]

theorem beVal_beBytes (n v : Nat) (h : v < 256 ^ n) : beVal (beBytes n v) = v := by
  induction n generalizing v with
  | zero =>
    have : v = 0 := by simpa using Nat.lt_one_iff.mp (by simpa using h)
    simp [this, beBytes, beVal]
  | succ n ih =>
    have hdiv : v / 256 < 256 ^ n := by
      have hvm : v < 256 * 256 ^ n := by
        calc v < 256 ^ (n + 1) := h
        _ = 256 * 256 ^ n := by ring
      exact Nat.div_lt_of_lt_mul hvm
    calc beVal (beBytes (n + 1) v)
        = beVal (beBytes n (v / 256) ++ [v % 256]) := rfl
      _ = beVal (beBytes n (v / 256)) * 256 + v % 256 := beVal_append_singleton _ _
      _ = v / 256 * 256 + v % 256 := by rw [ih _ hdiv]
      _ = v := by omega

theorem take_append_of_length {α : Type} {l₁ : List α} (l₂ : List α) {n : Nat}
    (h : l₁.length = n) : (l₁ ++ l₂).take n = l₁ := by
  subst h
  exact List.take_left l₁ l₂

theorem drop_append_of_length {α : Type} {l₁ : List α} (l₂ : List α) {n : Nat}
    (h : l₁.length = n) : (l₁ ++ l₂).drop n = l₂ := by
  subst h
  exact List.drop_left l₁ l₂

theorem mpack_uint64_ne_nil (v : Nat) : mpack_uint64 v ≠ [] := by
  unfold mpack_uint64
  split <;> try simp
  split <;> try simp
  split <;> try simp
  split <;> simp

theorem length_mpack_uint64_pos (v : Nat) : 0 < (mpack_uint64 v).length :=
  List.length_pos.mpr (mpack_uint64_ne_nil v)

theorem msgpackReadUint_mpack_uint64 (v : Nat) (hv : v < 2 ^ 64) (rest : List Nat) :
    msgpackReadUint (mpack_uint64 v ++ rest) = .ok v (mpack_uint64 v).length := by
  unfold mpack_uint64
  by_cases h1 : v < 0x80
  · simp [h1, msgpackReadUint]
  · by_cases h2 : v < 0x100
    · have htake : (beBytes 1 v ++ rest).take 1 = beBytes 1 v :=
        take_append_of_length rest (length_beBytes 1 v)
      simp [h1, h2, msgpackReadUint, intWidth, length_beBytes, htake,
        beVal_beBytes 1 v (by omega)]
    · by_cases h3 : v < 0x10000
      · have htake : (beBytes 2 v ++ rest).take 2 = beBytes 2 v :=
          take_append_of_length rest (length_beBytes 2 v)
        simp [h1, h2, h3, msgpackReadUint, intWidth, length_beBytes, htake,
          beVal_beBytes 2 v (by omega)]
      · by_cases h4 : v < 0x100000000
        · have htake : (beBytes 4 v ++ rest).take 4 = beBytes 4 v :=
            take_append_of_length rest (length_beBytes 4 v)
          simp [h1, h2, h3, h4, msgpackReadUint, intWidth, length_beBytes, htake,
            beVal_beBytes 4 v (by omega)]
        · have htake : (beBytes 8 v ++ rest).take 8 = beBytes 8 v :=
            take_append_of_length rest (length_beBytes 8 v)
          simp [h1, h2, h3, h4, msgpackReadUint, intWidth, length_beBytes, htake,
            beVal_beBytes 8 v (by omega)]

theorem msgpackReadUint_ok_bounds {l : List Nat} {v c : Nat}
    (h : msgpackReadUint l = .ok v c) : 1 ≤ c ∧ c ≤ l.length := by
  cases l with
  | nil => simp [msgpackReadUint] at h
  | cons b rest =>
    by_cases h1 : b < 0x80
    · simp only [msgpackReadUint, h1, if_true, MRUResult.ok.injEq] at h
      obtain ⟨-, hc⟩ := h
      subst hc
      simp only [List.length_cons]
      omega
    · by_cases h2 : intWidth b = 0
      · simp [msgpackReadUint, h1, h2] at h
      · by_cases h3 : rest.length < intWidth b
        · simp [msgpackReadUint, h1, h2, h3] at h
        · simp only [msgpackReadUint, h1, h2, h3, if_true, if_false,
            MRUResult.ok.injEq] at h
          obtain ⟨-, hc⟩ := h
          subst hc
          simp only [List.length_cons]
          omega

theorem advance_bytes_le (r : SDReader) (k : Nat) :
    (r.advance k).bytes.length ≤ r.bytes.length := by
  simp only [SDReader.advance, List.length_drop]
  omega

theorem srniBody_again_le {K : Type} {parseKnown : Nat → List Nat → Option K}
    {fp t ts L : Nat} {r3 r' : SDReader} {flags mk : Nat}
    (h : srniBody parseKnown fp t ts L r3 flags mk = .again r') :
    r'.bytes.length ≤ r3.bytes.length := by
  unfold srniBody at h
  repeat' split at h
  all_goals cases h
  all_goals exact advance_bytes_le r3 _

theorem srniStep_again_lt {K : Type} {parseKnown : Nat → List Nat → Option K}
    {r r' : SDReader} {flags mk : Nat}
    (h : srniStep parseKnown r flags mk = .again r') :
    r'.bytes.length < r.bytes.length := by
  unfold srniStep at h
  split at h
  · cases h
  · rename_i hne
    have hlen : 0 < r.bytes.length := List.length_pos.mpr hne
    split at h
    · cases h
    · cases h
    · rename_i t c1 hmru1
      have hc1 := msgpackReadUint_ok_bounds hmru1
      split at h
      · cases h
      · cases h
      · rename_i ts c2 hmru2
        split at h
        · cases h
        · cases h
        · rename_i L c3 hmru3
          have h3 := srniBody_again_le h
          simp only [SDReader.advance, List.length_drop] at h3
          omega

theorem srniLoop_congr {K : Type} (parseKnown : Nat → List Nat → Option K)
    (flags mk : Nat) :
    ∀ (f g : Nat) (r : SDReader), r.bytes.length < f → r.bytes.length < g →
      srniLoop parseKnown f r flags mk = srniLoop parseKnown g r flags mk := by
  intro f
  induction f with
  | zero => intro g r hf; omega
  | succ f ih =>
    intro g r hf hg
    cases g with
    | zero => omega
    | succ g =>
      simp only [srniLoop]
      split
      · rfl
      · rfl
      · rfl
      · rename_i r2 hstep
        have hlt := srniStep_again_lt hstep
        exact ih g r2 (by omega) (by omega)

theorem srni_of_step_finished {K : Type} {parseKnown : Nat → List Nat → Option K}
    {r : SDReader} {flags mk : Nat}
    (h : srniStep parseKnown r flags mk = .finished) :
    shada_read_next_item parseKnown r flags mk = (.finished, ⟨0, .missing⟩, r) := by
  unfold shada_read_next_item
  simp only [srniLoop, h]

theorem srni_of_step_fail {K : Type} {parseKnown : Nat → List Nat → Option K}
    {r r2 : SDReader} {flags mk : Nat} {st : ShaDaReadResult} {ts : Nat}
    (h : srniStep parseKnown r flags mk = .fail st ts r2) :
    shada_read_next_item parseKnown r flags mk = (st, ⟨ts, .missing⟩, r2) := by
  unfold shada_read_next_item
  simp only [srniLoop, h]

theorem srni_of_step_done {K : Type} {parseKnown : Nat → List Nat → Option K}
    {r r2 : SDReader} {flags mk : Nat} {e : ShadaEntryR K}
    (h : srniStep parseKnown r flags mk = .done e r2) :
    shada_read_next_item parseKnown r flags mk = (.success, e, r2) := by
  unfold shada_read_next_item
  simp only [srniLoop, h]

theorem srniStep_header {K : Type} (parseKnown : Nat → List Nat → Option K)
    (t ts L : Nat) (body : List Nat) (pos flags mk : Nat)
    (ht : t < 2 ^ 64) (hts : ts < 2 ^ 64) (hL : L < 2 ^ 64) :
    srniStep parseKnown
        ⟨mpack_uint64 t ++ (mpack_uint64 ts ++ (mpack_uint64 L ++ body)), pos⟩ flags mk
      = srniBody parseKnown pos t ts L
          ⟨body, pos + ((mpack_uint64 t).length + (mpack_uint64 ts).length
            + (mpack_uint64 L).length)⟩ flags mk := by
  have hne : mpack_uint64 t ++ (mpack_uint64 ts ++ (mpack_uint64 L ++ body)) ≠ [] := by
    intro hh
    exact mpack_uint64_ne_nil t (List.append_eq_nil.mp hh).1
  have hd1 : (mpack_uint64 t ++ (mpack_uint64 ts ++ (mpack_uint64 L ++ body))).drop
        (mpack_uint64 t).length = mpack_uint64 ts ++ (mpack_uint64 L ++ body) :=
    List.drop_left _ _
  have hassoc2 : mpack_uint64 t ++ (mpack_uint64 ts ++ (mpack_uint64 L ++ body))
      = (mpack_uint64 t ++ mpack_uint64 ts) ++ (mpack_uint64 L ++ body) :=
    (List.append_assoc _ _ _).symm
  have hd2 : (mpack_uint64 t ++ (mpack_uint64 ts ++ (mpack_uint64 L ++ body))).drop
        ((mpack_uint64 t).length + (mpack_uint64 ts).length)
      = mpack_uint64 L ++ body := by
    rw [hassoc2]
    exact drop_append_of_length _ (by simp only [List.length_append])
  have hassoc3 : mpack_uint64 t ++ (mpack_uint64 ts ++ (mpack_uint64 L ++ body))
      = (mpack_uint64 t ++ mpack_uint64 ts ++ mpack_uint64 L) ++ body := by
    simp [List.append_assoc]
  have hd3 : (mpack_uint64 t ++ (mpack_uint64 ts ++ (mpack_uint64 L ++ body))).drop
        ((mpack_uint64 t).length + (mpack_uint64 ts).length + (mpack_uint64 L).length)
      = body := by
    rw [hassoc3]
    exact drop_append_of_length _ (by simp only [List.length_append])
  unfold srniStep
  simp only [SDReader.advance, if_neg hne, hd1, hd2, hd3,
    msgpackReadUint_mpack_uint64 t ht, msgpackReadUint_mpack_uint64 ts hts,
    msgpackReadUint_mpack_uint64 L hL]

theorem srniBody_done_unknown {K : Type} (parseKnown : Nat → List Nat → Option K)
    {fp t ts L : Nat} (body rest : List Nat) (p : Nat) {flags mk : Nat}
    (hP : L ≤ PTRDIFF_MAX) (ht : SHADA_LAST_ENTRY < t)
    (hflag : flags.testBit (SHADA_LAST_ENTRY + 1) = true)
    (hsize : mk = 0 ∨ L ≤ mk * 1024)
    (hfp : fp ≠ 0 ∨ unpack_skip body = some [])
    (hbody : body.length = L) :
    srniBody parseKnown fp t ts L ⟨body ++ rest, p⟩ flags mk
      = .done ⟨ts, .unknownItem t body⟩ ⟨rest, p + L⟩ := by
  have hskip : srniSkipDue t L flags mk = false := by
    unfold srniSkipDue
    rw [if_pos ht, hflag]
    rcases hsize with h0 | hle
    · simp [h0]
    · simp
      omega
  have htake : (body ++ rest).take L = body := take_append_of_length rest hbody
  have hdrop : (body ++ rest).drop L = rest := drop_append_of_length rest hbody
  have hlen : ¬ ((body ++ rest : List Nat).length < L) := by
    simp only [List.length_append]
    omega
  have hcond : ¬ ((decide (fp = 0)
      && ! decide (unpack_skip body = some [])) = true) := by
    rcases hfp with h | h
    · simp [h]
    · simp [h]
  unfold srniBody
  rw [if_neg (by omega : ¬ PTRDIFF_MAX < L), if_neg (by omega : ¬ t = 0)]
  rw [hskip]
  simp only [Bool.false_and, Bool.false_or, if_false, Bool.false_eq_true]
  rw [if_neg hlen, if_pos ht, htake]
  rw [if_neg hcond]
  simp only [SDReader.advance, hdrop]

theorem srniBody_fail_unknown_pos0 {K : Type} (parseKnown : Nat → List Nat → Option K)
    {t ts L : Nat} (body rest : List Nat) (p : Nat) {flags mk : Nat}
    (hP : L ≤ PTRDIFF_MAX) (ht : SHADA_LAST_ENTRY < t)
    (hflag : flags.testBit (SHADA_LAST_ENTRY + 1) = true)
    (hsize : mk = 0 ∨ L ≤ mk * 1024)
    (hns : unpack_skip body ≠ some [])
    (hbody : body.length = L) :
    srniBody parseKnown 0 t ts L ⟨body ++ rest, p⟩ flags mk
      = .fail .notShaDa ts ⟨rest, p + L⟩ := by
  have hskip : srniSkipDue t L flags mk = false := by
    unfold srniSkipDue
    rw [if_pos ht, hflag]
    rcases hsize with h0 | hle
    · simp [h0]
    · simp
      omega
  have htake : (body ++ rest).take L = body := take_append_of_length rest hbody
  have hdrop : (body ++ rest).drop L = rest := drop_append_of_length rest hbody
  have hlen : ¬ ((body ++ rest : List Nat).length < L) := by
    simp only [List.length_append]
    omega
  unfold srniBody
  rw [if_neg (by omega : ¬ PTRDIFF_MAX < L), if_neg (by omega : ¬ t = 0)]
  rw [hskip]
  simp only [Bool.false_and, Bool.false_or, if_false, Bool.false_eq_true]
  rw [if_neg hlen, if_pos ht, htake]
  simp [hns, SDReader.advance, hdrop]

theorem srniBody_again_skip {K : Type} (parseKnown : Nat → List Nat → Option K)
    {fp t ts L : Nat} (body rest : List Nat) (p : Nat) {flags mk : Nat}
    (hP : L ≤ PTRDIFF_MAX) (ht0 : t ≠ 0)
    (hmk : mk ≠ 0) (hsz : mk * 1024 < L)
    (hfh : srniFirstHeuristic fp t = false)
    (hbody : body.length = L) :
    srniBody parseKnown fp t ts L ⟨body ++ rest, p⟩ flags mk
      = .again ⟨rest, p + L⟩ := by
  have hskip : srniSkipDue t L flags mk = true := by
    unfold srniSkipDue
    simp [hmk, hsz]
  have hdrop : (body ++ rest).drop L = rest := drop_append_of_length rest hbody
  have hlen : L ≤ (body ++ rest : List Nat).length := by
    simp only [List.length_append]
    omega
  unfold srniBody
  rw [if_neg (by omega : ¬ PTRDIFF_MAX < L), if_neg ht0]
  rw [hskip, hfh]
  simp only [Bool.not_false, Bool.true_and, if_true]
  rw [if_pos hlen]
  simp only [SDReader.advance, hdrop]

theorem srniBody_short_notShaDa {K : Type} (parseKnown : Nat → List Nat → Option K)
    {fp t ts L : Nat} {r3 : SDReader} {flags mk : Nat}
    (hP : L ≤ PTRDIFF_MAX) (hshort : r3.bytes.length < L) :
    ∃ ts2 r2, srniBody parseKnown fp t ts L r3 flags mk = .fail .notShaDa ts2 r2 := by
  unfold srniBody
  rw [if_neg (by omega : ¬ PTRDIFF_MAX < L)]
  by_cases ht0 : t = 0
  · rw [if_pos ht0]
    exact ⟨ts, r3, rfl⟩
  · rw [if_neg ht0]
    by_cases hsd : (srniSkipDue t L flags mk && ! srniFirstHeuristic fp t) = true
    · rw [if_pos hsd, if_neg (by omega : ¬ L ≤ r3.bytes.length)]
      exact ⟨ts, _, rfl⟩
    · rw [if_neg hsd, if_pos hshort]
      exact ⟨ts, _, rfl⟩

theorem srniBody_too_long {K : Type} (parseKnown : Nat → List Nat → Option K)
    {fp t ts L : Nat} {r3 : SDReader} {flags mk : Nat}
    (hP : PTRDIFF_MAX < L) :
    srniBody parseKnown fp t ts L r3 flags mk = .fail .notShaDa 0 r3 := by
  unfold srniBody
  rw [if_pos hP]

theorem srni_of_step_again {K : Type} {parseKnown : Nat → List Nat → Option K}
    {r r2 : SDReader} {flags mk : Nat}
    (h : srniStep parseKnown r flags mk = .again r2) :
    shada_read_next_item parseKnown r flags mk
      = shada_read_next_item parseKnown r2 flags mk := by
  have hlt := srniStep_again_lt h
  unfold shada_read_next_item
  calc srniLoop parseKnown (r.bytes.length + 1) r flags mk
      = srniLoop parseKnown r.bytes.length r2 flags mk := by
        simp only [srniLoop, h]
    _ = srniLoop parseKnown (r2.bytes.length + 1) r2 flags mk :=
        srniLoop_congr parseKnown flags mk _ _ r2 (by omega) (by omega)

theorem srniLoop_nonsuccess_missing {K : Type} (parseKnown : Nat → List Nat → Option K)
    (flags mk : Nat) :
    ∀ (fuel : Nat) (r : SDReader),
      (srniLoop parseKnown fuel r flags mk).1 ≠ .success →
      (srniLoop parseKnown fuel r flags mk).2.1.payload = ReadPayload.missing := by
  intro fuel
  induction fuel with
  | zero => intro r _; rfl
  | succ fuel ih =>
    intro r h
    rcases hstep : srniStep parseKnown r flags mk with _ | ⟨st, ts, r2⟩ | r2 | ⟨e, r2⟩
    · simp only [srniLoop, hstep]
    · simp only [srniLoop, hstep]
    · simp only [srniLoop, hstep] at h ⊢
      exact ih r2 h
    · simp only [srniLoop, hstep] at h
      exact absurd rfl h

/-- C9: Error atomicity of the record reader: whenever shada_read_next_item
returns a status other than success, the output entry has type
kSDItemMissing and carries no decoded payload data (every error path of the
source resets the entry to kSDItemMissing after freeing whatever it had
decoded, shada.c:3572-3578; the returned entry of this model is the
observable image of that cleanup). -/
theorem shada_read_next_item_error_atomicity :
    ∀ (K : Type) (parseKnown : Nat → List Nat → Option K) (r : SDReader)
      (flags max_kbyte : Nat),
      (shada_read_next_item parseKnown r flags max_kbyte).1 ≠ ShaDaReadResult.success →
      (shada_read_next_item parseKnown r flags max_kbyte).2.1.payload
        = ReadPayload.missing := by
  intro K parseKnown r flags max_kbyte h
  exact srniLoop_nonsuccess_missing parseKnown flags max_kbyte _ r h

/-- Witness for C9 at a concrete input: the byte 0xC1 is not a valid type
integer, the read fails with NotShaDa, and the returned entry is missing. -/
theorem shada_read_next_item_error_atomicity_witness :
    (shada_read_next_item trivialParse ⟨[0xC1], 0⟩ 0 0).1 ≠ ShaDaReadResult.success
    ∧ (shada_read_next_item trivialParse ⟨[0xC1], 0⟩ 0 0).2.1.payload
        = ReadPayload.missing :=
  ⟨by decide,
   shada_read_next_item_error_atomicity Unit trivialParse ⟨[0xC1], 0⟩ 0 0 (by decide)⟩

/-- C10: Zero size cap disables writing entirely: when the shada 's'
parameter evaluates to 0, shada_write returns success immediately and emits
nothing at all - not even the Header record (shada.c:2276-2282 return
before any allocation or emission). -/
theorem shada_write_zero_cap_writes_nothing :
    ∀ (K W : Type) (parseKnown : Nat → List Nat → Option K)
      (process : W → ShadaEntryR K → W) (flags : Nat)
      (headerBytes bodyBytes : List Nat) (sd_reader : Option SDReader) (wms0 : W),
      shada_write parseKnown process flags headerBytes bodyBytes 0 sd_reader wms0
        = (ShaDaWriteResult.successful, []) := by
  intro K W parseKnown process flags headerBytes bodyBytes sd_reader wms0
  rfl

theorem msgpackReadUint_mpack_only (v : Nat) (hv : v < 2 ^ 64) :
    msgpackReadUint (mpack_uint64 v) = .ok v (mpack_uint64 v).length := by
  have h := msgpackReadUint_mpack_uint64 v hv []
  rwa [List.append_nil] at h

theorem msgpackReadUint_nil : msgpackReadUint [] = .eofAtStart := rfl

/-- C8: Framing EOF classification: EOF before the first byte of the type
integer (a record boundary) is normal termination (Finished); EOF inside
the type integer, before or inside the timestamp or length integers, or
inside the payload is the hard NotShaDa error; a length field exceeding
PTRDIFF_MAX is also NotShaDa (shada.c:3071-3130, 3159-3194, 3033-3052). -/
theorem framing_eof_classification :
    (∀ (K : Type) (parseKnown : Nat → List Nat → Option K) (pos flags mk : Nat),
      shada_read_next_item parseKnown ⟨[], pos⟩ flags mk
        = (ShaDaReadResult.finished, ⟨0, ReadPayload.missing⟩, ⟨[], pos⟩))
    ∧ (∀ (K : Type) (parseKnown : Nat → List Nat → Option K) (c : Nat)
        (rest : List Nat) (pos flags mk : Nat),
        (c = 0xCC ∨ c = 0xCD ∨ c = 0xCE ∨ c = 0xCF) → rest.length < intWidth c →
        (shada_read_next_item parseKnown ⟨c :: rest, pos⟩ flags mk).1
          = ShaDaReadResult.notShaDa)
    ∧ (∀ (K : Type) (parseKnown : Nat → List Nat → Option K) (t pos flags mk : Nat),
        t < 2 ^ 64 →
        (shada_read_next_item parseKnown ⟨mpack_uint64 t, pos⟩ flags mk).1
          = ShaDaReadResult.notShaDa)
    ∧ (∀ (K : Type) (parseKnown : Nat → List Nat → Option K) (t ts pos flags mk : Nat),
        t < 2 ^ 64 → ts < 2 ^ 64 →
        (shada_read_next_item parseKnown ⟨mpack_uint64 t ++ mpack_uint64 ts, pos⟩
          flags mk).1 = ShaDaReadResult.notShaDa)
    ∧ (∀ (K : Type) (parseKnown : Nat → List Nat → Option K) (t ts L : Nat)
        (body : List Nat) (pos flags mk : Nat),
        t < 2 ^ 64 → ts < 2 ^ 64 → L < 2 ^ 64 → L ≤ PTRDIFF_MAX → body.length < L →
        (shada_read_next_item parseKnown
          ⟨mpack_uint64 t ++ (mpack_uint64 ts ++ (mpack_uint64 L ++ body)), pos⟩
          flags mk).1 = ShaDaReadResult.notShaDa)
    ∧ (∀ (K : Type) (parseKnown : Nat → List Nat → Option K) (t ts L : Nat)
        (body : List Nat) (pos flags mk : Nat),
        t < 2 ^ 64 → ts < 2 ^ 64 → L < 2 ^ 64 → PTRDIFF_MAX < L →
        (shada_read_next_item parseKnown
          ⟨mpack_uint64 t ++ (mpack_uint64 ts ++ (mpack_uint64 L ++ body)), pos⟩
          flags mk).1 = ShaDaReadResult.notShaDa) := by
  refine ⟨?ha, ?hb, ?hc, ?hd, ?he, ?hf⟩
  · intro K parseKnown pos flags mk
    exact srni_of_step_finished (by simp [srniStep])
  · intro K parseKnown c rest pos flags mk hc hlen
    have hblt : ¬ c < 0x80 := by rcases hc with rfl | rfl | rfl | rfl <;> decide
    have hw : ¬ intWidth c = 0 := by rcases hc with rfl | rfl | rfl | rfl <;> decide
    have hmru : msgpackReadUint (c :: rest) = .badInput := by
      simp only [msgpackReadUint, if_neg hblt, if_neg hw, if_pos hlen]
    have hstep : srniStep parseKnown ⟨c :: rest, pos⟩ flags mk
        = .fail .notShaDa 0 ⟨c :: rest, pos⟩ := by
      unfold srniStep
      simp only [hmru, if_neg (by simp : ¬ (c :: rest : List Nat) = [])]
    rw [srni_of_step_fail hstep]
  · intro K parseKnown t pos flags mk ht
    have hstep : srniStep parseKnown ⟨mpack_uint64 t, pos⟩ flags mk
        = .fail .notShaDa 0 (SDReader.advance ⟨mpack_uint64 t, pos⟩
            (mpack_uint64 t).length) := by
      unfold srniStep
      simp only [msgpackReadUint_mpack_only t ht, List.drop_length,
        if_neg (mpack_uint64_ne_nil t), msgpackReadUint_nil]
    rw [srni_of_step_fail hstep]
  · intro K parseKnown t ts pos flags mk ht hts
    have hd2 : (mpack_uint64 t ++ mpack_uint64 ts).drop
        ((mpack_uint64 t).length + (mpack_uint64 ts).length) = [] := by
      have hl : (mpack_uint64 t ++ mpack_uint64 ts : List Nat).length
          = (mpack_uint64 t).length + (mpack_uint64 ts).length := by
        simp [List.length_append]
      rw [← hl, List.drop_length]
    have hstep : srniStep parseKnown ⟨mpack_uint64 t ++ mpack_uint64 ts, pos⟩ flags mk
        = .fail .notShaDa 0 (SDReader.advance ⟨mpack_uint64 t ++ mpack_uint64 ts, pos⟩
            ((mpack_uint64 t).length + (mpack_uint64 ts).length)) := by
      unfold srniStep
      simp only [msgpackReadUint_mpack_uint64 t ht, List.drop_left,
        msgpackReadUint_mpack_only ts hts, hd2,
        if_neg (by simp [mpack_uint64_ne_nil t] :
          ¬ (mpack_uint64 t ++ mpack_uint64 ts : List Nat) = []), msgpackReadUint_nil]
    rw [srni_of_step_fail hstep]
  · intro K parseKnown t ts L body pos flags mk ht hts hL hPd hshort
    have hstep := srniStep_header parseKnown t ts L body pos flags mk ht hts hL
    obtain ⟨ts2, r2, hfail⟩ := srniBody_short_notShaDa parseKnown hPd
      (by simpa using hshort :
        (SDReader.mk body (pos + ((mpack_uint64 t).length + (mpack_uint64 ts).length
          + (mpack_uint64 L).length))).bytes.length < L)
    rw [hfail] at hstep
    rw [srni_of_step_fail hstep]
  · intro K parseKnown t ts L body pos flags mk ht hts hL hPd
    have hstep := srniStep_header parseKnown t ts L body pos flags mk ht hts hL
    rw [srniBody_too_long parseKnown hPd] at hstep
    rw [srni_of_step_fail hstep]

/-- Witness for C8 at concrete inputs: an empty stream finishes; a stream
ending inside the type integer, after the type integer, after the
timestamp, inside the payload, and a record claiming a length above
PTRDIFF_MAX all yield NotShaDa. -/
theorem framing_eof_classification_witness :
    shada_read_next_item trivialParse ⟨[], 5⟩ 0 0
      = (ShaDaReadResult.finished, ⟨0, ReadPayload.missing⟩, ⟨[], 5⟩)
    ∧ (shada_read_next_item trivialParse ⟨[0xCD], 0⟩ 0 0).1 = ShaDaReadResult.notShaDa
    ∧ (shada_read_next_item trivialParse ⟨mpack_uint64 7, 0⟩ 0 0).1
        = ShaDaReadResult.notShaDa
    ∧ (shada_read_next_item trivialParse ⟨mpack_uint64 7 ++ mpack_uint64 9, 0⟩ 0 0).1
        = ShaDaReadResult.notShaDa
    ∧ (shada_read_next_item trivialParse
        ⟨mpack_uint64 7 ++ (mpack_uint64 9 ++ (mpack_uint64 5 ++ [1, 2])), 0⟩ 0 0).1
        = ShaDaReadResult.notShaDa
    ∧ (shada_read_next_item trivialParse
        ⟨mpack_uint64 7 ++ (mpack_uint64 9 ++ (mpack_uint64 (2 ^ 63) ++ [])), 0⟩ 0 0).1
        = ShaDaReadResult.notShaDa :=
  ⟨framing_eof_classification.1 Unit trivialParse 5 0 0,
   framing_eof_classification.2.1 Unit trivialParse 0xCD [] 0 0 0 (by decide) (by decide),
   framing_eof_classification.2.2.1 Unit trivialParse 7 0 0 0 (by decide),
   framing_eof_classification.2.2.2.1 Unit trivialParse 7 9 0 0 0 (by decide) (by decide),
   framing_eof_classification.2.2.2.2.1 Unit trivialParse 7 9 5 [1, 2] 0 0 0
     (by decide) (by decide) (by decide) (by decide) (by decide),
   framing_eof_classification.2.2.2.2.2 Unit trivialParse 7 9 (2 ^ 63) [] 0 0 0
     (by decide) (by decide) (by decide) (by decide)⟩

/-- C3 counterexample: an unknown-type record with EMPTY payload does not
round-trip.  Reading the record type=100, ts=0, length=0 (bytes
[100, 0, 0], at a nonzero file position) succeeds with an empty-payload
unknown item, but shada_pack_entry omits the length integer for an empty
payload (shada.c:1575-1578), emitting only [100, 0] - not byte-identical to
the original record, and not a parseable record at all: reading the
re-emitted bytes ends in the hard NotShaDa error instead of producing a
record of type 100. -/
theorem unknown_roundtrip_counterexample :
    shada_read_next_item trivialParse ⟨[100, 0, 0], 7⟩ 4096 0
      = (ShaDaReadResult.success, ⟨0, ReadPayload.unknownItem 100 []⟩, ⟨[], 10⟩)
    ∧ shada_pack_entry trivialSer ⟨0, ReadPayload.unknownItem 100 []⟩ 0 = [100, 0]
    ∧ shada_pack_entry trivialSer ⟨0, ReadPayload.unknownItem 100 []⟩ 0 ≠ [100, 0, 0]
    ∧ (shada_read_next_item trivialParse ⟨[100, 0], 7⟩ 4096 0).1
        = ShaDaReadResult.notShaDa := by
  refine ⟨?_, ?_, ?_, ?_⟩ <;> decide

/-- C3 amended: Unknown-record round-trip for non-empty payloads: for every
record whose type is greater than the last known type (11) with non-empty
payload bytes P (with unknown-record reading enabled and the record within
the size cap), if the record is not the first in the file (nonzero
position), or if it is first but P parses cleanly as a single msgpack
object (the first-record heuristic, shada.c:3220-3229, as in a single-record
file whose payload is well-formed), then reading the record yields an
unknown item carrying exactly P, and re-emitting that item reproduces the
record: the same type and timestamp integers, the length of P, and a
payload byte-identical to P.  The one exception: a first record whose
payload does not parse cleanly as a single msgpack object aborts the whole
read with NotShaDa, so nothing round-trips. -/
theorem unknown_record_roundtrip_amended :
    (∀ (K : Type) (parseKnown : Nat → List Nat → Option K)
      (serializeKnown : Nat → K → List Nat) (t ts : Nat) (P rest : List Nat)
      (pos flags mk : Nat),
      SHADA_LAST_ENTRY < t → t < 2 ^ 64 → ts < 2 ^ 64 →
      P ≠ [] → P.length ≤ PTRDIFF_MAX →
      flags.testBit (SHADA_LAST_ENTRY + 1) = true →
      (mk = 0 ∨ P.length ≤ mk * 1024) →
      (pos ≠ 0 ∨ unpack_skip P = some []) →
      shada_read_next_item parseKnown
          ⟨mpack_uint64 t ++ (mpack_uint64 ts ++ (mpack_uint64 P.length ++ (P ++ rest))),
            pos⟩ flags mk
        = (ShaDaReadResult.success, ⟨ts, ReadPayload.unknownItem t P⟩,
            ⟨rest, pos + ((mpack_uint64 t).length + (mpack_uint64 ts).length
              + (mpack_uint64 P.length).length) + P.length⟩)
      ∧ shada_pack_entry serializeKnown ⟨ts, ReadPayload.unknownItem t P⟩ 0
          = mpack_uint64 t ++ (mpack_uint64 ts ++ (mpack_uint64 P.length ++ P)))
    ∧ (∀ (K : Type) (parseKnown : Nat → List Nat → Option K) (t ts : Nat)
        (P rest : List Nat) (flags mk : Nat),
        SHADA_LAST_ENTRY < t → t < 2 ^ 64 → ts < 2 ^ 64 →
        P.length ≤ PTRDIFF_MAX →
        flags.testBit (SHADA_LAST_ENTRY + 1) = true →
        (mk = 0 ∨ P.length ≤ mk * 1024) →
        unpack_skip P ≠ some [] →
        (shada_read_next_item parseKnown
            ⟨mpack_uint64 t ++ (mpack_uint64 ts ++ (mpack_uint64 P.length ++ (P ++ rest))),
              0⟩ flags mk).1
          = ShaDaReadResult.notShaDa) := by
  constructor
  · intro K parseKnown serializeKnown t ts P rest pos flags mk ht ht64 hts64 hP hPd
      hflag hsize hpos
    have hL64 : P.length < 2 ^ 64 := by
      have : PTRDIFF_MAX < 2 ^ 64 := by decide
      omega
    constructor
    · have hstep := srniStep_header parseKnown t ts P.length (P ++ rest) pos flags mk
        ht64 hts64 hL64
      rw [srniBody_done_unknown parseKnown P rest _ hPd ht hflag hsize hpos rfl] at hstep
      exact srni_of_step_done hstep
    · have hlen : 0 < (shada_pack_payload serializeKnown
          ⟨ts, ReadPayload.unknownItem t P⟩).length := by
        simp [shada_pack_payload, List.length_pos, hP]
      simp [shada_pack_entry, shada_pack_payload, shada_pack_etype, hlen]
      exact fun h => absurd h hP
  · intro K parseKnown t ts P rest flags mk ht ht64 hts64 hPd hflag hsize hns
    have hL64 : P.length < 2 ^ 64 := by
      have : PTRDIFF_MAX < 2 ^ 64 := by decide
      omega
    have hstep := srniStep_header parseKnown t ts P.length (P ++ rest) 0 flags mk
      ht64 hts64 hL64
    rw [srniBody_fail_unknown_pos0 parseKnown P rest _ hPd ht hflag hsize hns rfl] at hstep
    rw [srni_of_step_fail hstep]

/-- Witness for the amended C3 at concrete inputs: the unknown record
type=100, ts=5, payload [7, 8] round-trips at position 3; the first record
of a file with type=100, ts=5, payload [7] (a single fixnum object)
round-trips at position 0; and the first record with payload [7, 8] (two
msgpack objects, so not a clean single-object parse) aborts the read with
NotShaDa. -/
theorem unknown_record_roundtrip_amended_witness :
    (shada_read_next_item trivialParse
        ⟨mpack_uint64 100 ++ (mpack_uint64 5 ++ (mpack_uint64 ([7, 8] : List Nat).length
          ++ ([7, 8] ++ []))), 3⟩ 4096 0
      = (ShaDaReadResult.success, ⟨5, ReadPayload.unknownItem 100 [7, 8]⟩,
          ⟨[], 3 + ((mpack_uint64 100).length + (mpack_uint64 5).length
            + (mpack_uint64 ([7, 8] : List Nat).length).length)
            + ([7, 8] : List Nat).length⟩)
    ∧ shada_pack_entry trivialSer ⟨5, ReadPayload.unknownItem 100 [7, 8]⟩ 0
        = mpack_uint64 100 ++ (mpack_uint64 5
            ++ (mpack_uint64 ([7, 8] : List Nat).length ++ [7, 8])))
    ∧ (shada_read_next_item trivialParse
        ⟨mpack_uint64 100 ++ (mpack_uint64 5 ++ (mpack_uint64 ([7] : List Nat).length
          ++ ([7] ++ []))), 0⟩ 4096 0
      = (ShaDaReadResult.success, ⟨5, ReadPayload.unknownItem 100 [7]⟩,
          ⟨[], 0 + ((mpack_uint64 100).length + (mpack_uint64 5).length
            + (mpack_uint64 ([7] : List Nat).length).length)
            + ([7] : List Nat).length⟩)
    ∧ shada_pack_entry trivialSer ⟨5, ReadPayload.unknownItem 100 [7]⟩ 0
        = mpack_uint64 100 ++ (mpack_uint64 5
            ++ (mpack_uint64 ([7] : List Nat).length ++ [7])))
    ∧ (shada_read_next_item trivialParse
        ⟨mpack_uint64 100 ++ (mpack_uint64 5 ++ (mpack_uint64 ([7, 8] : List Nat).length
          ++ ([7, 8] ++ []))), 0⟩ 4096 0).1
      = ShaDaReadResult.notShaDa :=
  ⟨unknown_record_roundtrip_amended.1 Unit trivialParse trivialSer 100 5 [7, 8] [] 3 4096 0
      (by decide) (by decide) (by decide) (by decide) (by decide) (by decide)
      (Or.inl rfl) (Or.inl (by decide)),
   unknown_record_roundtrip_amended.1 Unit trivialParse trivialSer 100 5 [7] [] 0 4096 0
      (by decide) (by decide) (by decide) (by decide) (by decide) (by decide)
      (Or.inl rfl) (Or.inr (by decide)),
   unknown_record_roundtrip_amended.2 Unit trivialParse 100 5 [7, 8] [] 4096 0
      (by decide) (by decide) (by decide) (by decide) (by decide) (Or.inl rfl)
      (by decide)⟩

set_option maxRecDepth 40000 in
/-- C4 counterexample: an oversized record is NOT always stream-skipped.
When the oversized record is the first in the file (position 0) and has an
unknown type, the "is this a ShaDa file?" heuristic applies
(shada.c:3220-3229): the payload must parse as a single msgpack object with
no bytes left over; 1025 fixnum-zero bytes leave 1024 bytes over, so the
whole read aborts with NotShaDa and the following well-formed Header record
is never read - contradicting "the record is stream-skipped (the following
record is still read correctly)".  Flags 4098 enable Header (bit 1) and
unknown (bit 12) records; max_kbyte = 1. -/
theorem size_cap_counterexample :
    (shada_read_next_item trivialParse ⟨oversizedFirstRecord, 0⟩ 4098 1).1
      = ShaDaReadResult.notShaDa := by
  decide

/-- C4 amended: Size cap: for every record with a valid nonzero type and
every nonzero max_kbyte, if the record's payload length exceeds
max_kbyte*1024 then on read the record is stream-skipped - reading
continues exactly as if positioned at the following record - EXCEPT when
the record triggers the first-record heuristic (position 0 with type 10 or
an unknown type), which may instead abort with NotShaDa; on emit the record
is not written; with max_kbyte = 0 the packer always emits. -/
theorem size_cap_amended :
    (∀ (K : Type) (parseKnown : Nat → List Nat → Option K) (t ts L : Nat)
      (body rest : List Nat) (pos flags mk : Nat),
      t < 2 ^ 64 → ts < 2 ^ 64 → L < 2 ^ 64 → t ≠ 0 →
      mk ≠ 0 → mk * 1024 < L → L ≤ PTRDIFF_MAX → body.length = L →
      srniFirstHeuristic pos t = false →
      shada_read_next_item parseKnown
          ⟨mpack_uint64 t ++ (mpack_uint64 ts ++ (mpack_uint64 L ++ (body ++ rest))),
            pos⟩ flags mk
        = shada_read_next_item parseKnown
            ⟨rest, pos + ((mpack_uint64 t).length + (mpack_uint64 ts).length
              + (mpack_uint64 L).length) + L⟩ flags mk)
    ∧ (∀ (K : Type) (serializeKnown : Nat → K → List Nat) (e : ShadaEntryR K)
        (mk : Nat), mk ≠ 0 →
        mk * 1024 < (shada_pack_payload serializeKnown e).length →
        shada_pack_entry serializeKnown e mk = [])
    ∧ (∀ (K : Type) (serializeKnown : Nat → K → List Nat) (e : ShadaEntryR K),
        shada_pack_entry serializeKnown e 0 ≠ []) := by
  refine ⟨?hread, ?hskip, ?hnocap⟩
  · intro K parseKnown t ts L body rest pos flags mk ht hts hL ht0 hmk hsz hPd hbody hfh
    have hstep := srniStep_header parseKnown t ts L (body ++ rest) pos flags mk ht hts hL
    rw [srniBody_again_skip parseKnown body rest _ hPd ht0 hmk hsz hfh hbody] at hstep
    exact srni_of_step_again hstep
  · intro K serializeKnown e mk hmk hsz
    unfold shada_pack_entry
    rw [if_neg (by omega : ¬ (mk = 0
      ∨ (shada_pack_payload serializeKnown e).length ≤ mk * 1024))]
  · intro K serializeKnown e
    unfold shada_pack_entry
    rw [if_pos (Or.inl rfl)]
    intro hh
    exact mpack_uint64_ne_nil (shada_pack_etype e) (List.append_eq_nil.mp hh).1

set_option maxRecDepth 40000 in
/-- Witness for the amended C4 at concrete inputs: an oversized unknown
record at position 3 (heuristic not triggered) is skipped and reading
continues at the following bytes; a 1025-byte payload is not packed with
max_kbyte = 1; packing with max_kbyte = 0 emits. -/
theorem size_cap_amended_witness :
    shada_read_next_item trivialParse
        ⟨mpack_uint64 100 ++ (mpack_uint64 0 ++ (mpack_uint64 1025 ++
          (List.replicate 1025 0 ++ []))), 3⟩ 4098 1
      = shada_read_next_item trivialParse
          ⟨[], 3 + ((mpack_uint64 100).length + (mpack_uint64 0).length
            + (mpack_uint64 1025).length) + 1025⟩ 4098 1
    ∧ shada_pack_entry trivialSer ⟨0, ReadPayload.unknownItem 100 (List.replicate 1025 0)⟩ 1
        = []
    ∧ shada_pack_entry trivialSer ⟨0, ReadPayload.unknownItem 100 (List.replicate 1025 0)⟩ 0
        ≠ [] :=
  ⟨size_cap_amended.1 Unit trivialParse 100 0 1025 (List.replicate 1025 0) [] 3 4098 1
      (by decide) (by decide) (by decide) (by decide) (by decide) (by decide)
      (by decide) (by decide) (by decide),
   size_cap_amended.2.1 Unit trivialSer _ 1 (by decide) (by decide),
   size_cap_amended.2.2 Unit trivialSer _⟩

theorem srww_single_newline_readNotShada {K W : Type}
    (parseKnown : Nat → List Nat → Option K) (process : W → ShadaEntryR K → W)
    (flags mk : Nat) (wms : W) :
    shada_read_when_writing parseKnown process ⟨[0x0a], 0⟩ flags mk wms
      = (ShaDaWriteResult.readNotShada, wms) := by
  rfl

/-- C2: NotShaDa preserves the target during merge-write: whenever the
previous file's merge pass reports NotShaDa, shada_write still completes
(the temporary file receives the full output) but the rename over the
target is skipped, leaving the target's contents unchanged
(shada.c:1787-1794 convert the read status, shada.c:2909-2917 skip the
rename).  In particular a previous target consisting of the single byte
0x0a (a record whose timestamp integer hits EOF) makes the merge pass
report NotShaDa. -/
theorem notshada_preserves_target :
    (∀ (K W : Type) (parseKnown : Nat → List Nat → Option K)
      (process : W → ShadaEntryR K → W) (flags : Nat)
      (headerBytes bodyBytes : List Nat) (sParam : Int) (wms0 : W)
      (fs : ShadaFS) (prev : List Nat) (writable : Bool),
      fs.target = some prev →
      (shada_write parseKnown process flags headerBytes bodyBytes sParam
        (some ⟨prev, 0⟩) wms0).1 = ShaDaWriteResult.readNotShada →
      shada_write_file parseKnown process flags headerBytes bodyBytes sParam wms0
          fs writable
        = ⟨some prev,
           some (shada_write parseKnown process flags headerBytes bodyBytes sParam
             (some ⟨prev, 0⟩) wms0).2⟩)
    ∧ (∀ (K W : Type) (parseKnown : Nat → List Nat → Option K)
        (process : W → ShadaEntryR K → W) (flags : Nat)
        (headerBytes bodyBytes : List Nat) (sParam : Int) (wms0 : W),
        sParam ≠ 0 →
        (shada_write parseKnown process flags headerBytes bodyBytes sParam
          (some ⟨[0x0a], 0⟩) wms0).1 = ShaDaWriteResult.readNotShada) := by
  constructor
  · intro K W parseKnown process flags headerBytes bodyBytes sParam wms0 fs prev
      writable htgt hns
    obtain ⟨tgt, tmp⟩ := fs
    simp only at htgt
    subst htgt
    unfold shada_write_file
    simp only
    rw [if_neg]
    intro hcon
    rw [hns] at hcon
    exact absurd hcon.1 (by decide)
  · intro K W parseKnown process flags headerBytes bodyBytes sParam wms0 hs
    unfold shada_write
    rw [if_neg]
    · simp only [srww_single_newline_readNotShada]
    · intro hcon
      split at hcon
      · exact absurd hcon (by decide)
      · exact hs (by exact_mod_cast hcon)

/-- Witness for C2 at a concrete input: a previous target holding the
single byte 0x0a; the write completes into the temporary file and the
target is left unchanged. -/
theorem notshada_preserves_target_witness :
    shada_write_file trivialParse trivialProcess 0 [] [] 10 ()
        ⟨some [0x0a], none⟩ true
      = ⟨some [0x0a],
         some (shada_write trivialParse trivialProcess 0 [] [] 10
           (some ⟨[0x0a], 0⟩) ()).2⟩
    ∧ (shada_write trivialParse trivialProcess 0 [] [] 10
        (some ⟨[0x0a], 0⟩) ()).1 = ShaDaWriteResult.readNotShada :=
  ⟨notshada_preserves_target.1 Unit Unit trivialParse trivialProcess 0 [] [] 10 ()
      ⟨some [0x0a], none⟩ [0x0a] true rfl
      (notshada_preserves_target.2 Unit Unit trivialParse trivialProcess 0 [] [] 10 ()
        (by decide)),
   notshada_preserves_target.2 Unit Unit trivialParse trivialProcess 0 [] [] 10 ()
     (by decide)⟩

theorem hms_lookup_mem {l : List HMLLNode} {s : String} {ex : HMLLNode}
    (h : hms_lookup l s = some ex) : ex ∈ l ∧ ex.data.hstring = s := by
  induction l with
  | nil => simp [hms_lookup] at h
  | cons x xs ih =>
    by_cases hx : x.data.hstring = s
    · simp only [hms_lookup, if_pos hx, Option.some.injEq] at h
      subst h
      exact ⟨List.mem_cons_self x xs, hx⟩
    · simp only [hms_lookup, if_neg hx] at h
      obtain ⟨hm, hs⟩ := ih h
      exact ⟨List.mem_cons_of_mem x hm, hs⟩

theorem hms_lookup_none {l : List HMLLNode} {s : String}
    (h : s ∉ l.map (fun n => n.data.hstring)) : hms_lookup l s = none := by
  induction l with
  | nil => rfl
  | cons x xs ih =>
    simp only [List.map_cons, List.mem_cons, not_or] at h
    have hx : ¬ x.data.hstring = s := fun hh => h.1 hh.symm
    simp only [hms_lookup, if_neg hx]
    exact ih h.2

theorem mem_erase_of_mem_hms_erase {l : List HMLLNode} {s : String} {y : HMLLNode}
    (h : y ∈ hms_erase l s) : y ∈ l := by
  induction l with
  | nil => simp [hms_erase] at h
  | cons x xs ih =>
    by_cases hx : x.data.hstring = s
    · simp only [hms_erase, if_pos hx] at h
      exact List.mem_cons_of_mem x h
    · simp only [hms_erase, if_neg hx, List.mem_cons] at h
      rcases h with h | h
      · exact h ▸ List.mem_cons_self x xs
      · exact List.mem_cons_of_mem x (ih h)

theorem lookup_not_mem_hms_erase {l : List HMLLNode} {s : String} {ex : HMLLNode}
    (hnd : (l.map (fun n => n.data.hstring)).Nodup)
    (h : hms_lookup l s = some ex) : ex ∉ hms_erase l s := by
  induction l with
  | nil => simp [hms_lookup] at h
  | cons x xs ih =>
    simp only [List.map_cons, List.nodup_cons] at hnd
    by_cases hx : x.data.hstring = s
    · simp only [hms_lookup, if_pos hx, Option.some.injEq] at h
      subst h
      simp only [hms_erase, if_pos hx]
      intro hmem
      exact hnd.1 (List.mem_map_of_mem (fun n => n.data.hstring) hmem)
    · simp only [hms_lookup, if_neg hx] at h
      simp only [hms_erase, if_neg hx, List.mem_cons]
      rintro (rfl | hmem)
      · exact hx (hms_lookup_mem h).2
      · exact ih hnd.2 h hmem

theorem mem_hmll_insert_at_self (l : List HMLLNode) (i : Option Nat) (x : HMLLNode) :
    x ∈ hmll_insert_at l i x := by
  cases i with
  | none => exact List.mem_cons_self x l
  | some i =>
    unfold hmll_insert_at
    exact List.mem_append_right _ (List.mem_cons_self _ _)

theorem mem_of_mem_hmll_insert_at {l : List HMLLNode} {i : Option Nat}
    {x y : HMLLNode} (h : y ∈ hmll_insert_at l i x) : y = x ∨ y ∈ l := by
  cases i with
  | none =>
    simp only [hmll_insert_at, List.mem_cons] at h
    exact h
  | some i =>
    simp only [hmll_insert_at, List.mem_append, List.mem_cons] at h
    rcases h with h | h | h
    · exact Or.inr (List.take_subset _ _ h)
    · exact Or.inl h
    · exact Or.inr (List.drop_subset _ _ h)

theorem mem_hmll_insert_self (size : Nat) (l : List HMLLNode) (i : Option Nat)
    (e : HistData) (cf : Bool) : (⟨e, cf⟩ : HMLLNode) ∈ hmll_insert size l i e cf := by
  unfold hmll_insert
  split
  · exact mem_hmll_insert_at_self _ _ _
  · exact mem_hmll_insert_at_self _ _ _

theorem mem_of_mem_hmll_insert {size : Nat} {l : List HMLLNode} {i : Option Nat}
    {e : HistData} {cf : Bool} {y : HMLLNode}
    (h : y ∈ hmll_insert size l i e cf) : y = ⟨e, cf⟩ ∨ y ∈ l := by
  unfold hmll_insert at h
  split at h
  · rcases mem_of_mem_hmll_insert_at h with h | h
    · exact Or.inl h
    · exact Or.inr (List.drop_subset _ _ h)
  · exact mem_of_mem_hmll_insert_at h

theorem length_hmll_insert_at (l : List HMLLNode) (i : Option Nat) (x : HMLLNode) :
    (hmll_insert_at l i x).length = l.length + 1 := by
  cases i with
  | none => rfl
  | some i =>
    simp only [hmll_insert_at, List.length_append, List.length_take,
      List.length_cons, List.length_drop]
    omega

theorem hmll_find_insert_after_none {l : List HMLLNode} {ts : Nat}
    (h : ∀ x ∈ l, ts < x.data.timestamp) : hmll_find_insert_after l ts = none := by
  induction l with
  | nil => rfl
  | cons x xs ih =>
    have hx := h x (List.mem_cons_self x xs)
    simp only [hmll_find_insert_after,
      ih (fun y hy => h y (List.mem_cons_of_mem x hy))]
    rw [if_neg (by omega)]

theorem hms_lookup_replace {l : List HMLLNode} {s : String} {ex : HMLLNode}
    (y : HMLLNode) (hy : y.data.hstring = s)
    (h : hms_lookup l s = some ex) :
    hms_lookup (hms_replace l s y) s = some y := by
  induction l with
  | nil => simp [hms_lookup] at h
  | cons x xs ih =>
    by_cases hx : x.data.hstring = s
    · simp only [hms_replace, if_pos hx, hms_lookup, if_pos hy]
    · simp only [hms_lookup, if_neg hx] at h
      simp only [hms_replace, if_neg hx, hms_lookup, if_neg hx]
      exact ih h

/-- C1 counterexample: newest-timestamp does NOT always win for records of
the same category denoting the same entity.  For the jump category
(same (file, position)), the merge scan of shada_read_when_writing
(shada.c:1995-2004) drops an incoming record that duplicates the newest
existing entry with timestamp at most its own - even when the incoming
record's timestamp is STRICTLY GREATER.  Concretely: the jump list holds
one entry at ("f", line 3, col 0) with timestamp 10; merging the same
(file, position) with timestamp 15 leaves the list unchanged, keeping the
older record. -/
theorem newest_wins_jump_counterexample :
    srww_insert_jump [⟨⟨8, 10, ⟨0, ⟨3, 0⟩, "f"⟩⟩, true⟩] ⟨8, 15, ⟨0, ⟨3, 0⟩, "f"⟩⟩
      = [⟨⟨8, 10, ⟨0, ⟨3, 0⟩, "f"⟩⟩, true⟩]
    ∧ (10 : Nat) < 15 := by
  constructor
  · rfl
  · decide

/-- C1 amended: Newest-timestamp-wins with editor tie-break, per category:
for the single-slot categories merged through COMPARE_WITH_ENTRY
(registers, named global marks, search patterns, substitution string), a
strictly newer incoming record replaces the slot (owned by the merger) and
an occupied slot at least as new is kept unchanged - so on an exact tie an
editor-contributed slot survives with its can_free_entry still false.  For
history strings, a strictly newer entry replaces the same-string node, and
on an exact timestamp tie an entry inserted outside the editor drain
(do_iter false, as editor entries are) replaces the node's bytes in place
with can_free_entry false, so the ring's slot for that string holds the
editor's record with can_free_entry false.  For jumps and changes,
however, an incoming record whose (file, position) equals that of the
newest existing record with timestamp at most its own is dropped, keeping
the incumbent (possibly strictly older) record. -/
theorem newest_wins_amended :
    (∀ (α : Type) (slot : PossiblyFreedShadaEntry α) (e : WmsEntry α),
        slot.data.timestamp < e.timestamp → compare_with_entry slot e = ⟨e, true⟩)
    ∧ (∀ (α : Type) (slot : PossiblyFreedShadaEntry α) (e : WmsEntry α),
        slot.data.etype ≠ 0 → e.timestamp ≤ slot.data.timestamp →
        compare_with_entry slot e = slot)
    ∧ (∀ (size : Nat) (l : List HMLLNode) (ex : HMLLNode) (e : HistData),
        hms_lookup l e.hstring = some ex → e.timestamp = ex.data.timestamp →
        hms_insert_core size l e false false = hms_replace l e.hstring ⟨e, false⟩
          ∧ hms_lookup (hms_insert_core size l e false false) e.hstring
              = some ⟨e, false⟩)
    ∧ (∀ (size : Nat) (l : List HMLLNode) (ex : HMLLNode) (e : HistData) (cf : Bool),
        (l.map (fun n => n.data.hstring)).Nodup →
        hms_lookup l e.hstring = some ex → ex.data.timestamp < e.timestamp →
        (⟨e, cf⟩ : HMLLNode) ∈ hms_insert_core size l e true cf
          ∧ ex ∉ hms_insert_core size l e true cf)
    ∧ (∀ (l1 : List (PossiblyFreedShadaEntry FilemarkData))
        (j : PossiblyFreedShadaEntry FilemarkData) (e : WmsEntry FilemarkData),
        j.data.timestamp ≤ e.timestamp →
        marks_equal j.data.data.mark e.data.mark = true →
        j.data.data.fname = e.data.fname →
        srww_insert_jump (l1 ++ [j]) e = l1 ++ [j]) := by
  refine ⟨?hcmp1, ?hcmp2, ?htie, ?hnew, ?hjump⟩
  · intro α slot e hlt
    unfold compare_with_entry
    rw [if_neg]
    intro hcon
    omega
  · intro α slot e het hle
    unfold compare_with_entry
    rw [if_pos ⟨het, hle⟩]
  · intro size l ex e hlook htie
    have heq : hms_insert_core size l e false false
        = hms_replace l e.hstring ⟨e, false⟩ := by
      simp only [hms_insert_core, hlook]
      rw [if_neg (by omega : ¬ ex.data.timestamp < e.timestamp),
        if_pos ⟨trivial, htie⟩]
    refine ⟨heq, ?_⟩
    rw [heq]
    exact hms_lookup_replace ⟨e, false⟩ rfl hlook
  · intro size l ex e cf hnd hlook hlt
    have hcore : hms_insert_core size l e true cf
        = hmll_insert size (hms_erase l e.hstring)
            (hmll_find_insert_after (hms_erase l e.hstring) e.timestamp) e cf := by
      simp only [hms_insert_core, hlook]
      rw [if_pos hlt]
    rw [hcore]
    constructor
    · exact mem_hmll_insert_self _ _ _ _ _
    · intro hmem
      rcases mem_of_mem_hmll_insert hmem with h | h
      · have : ex.data.timestamp = e.timestamp := by rw [h]
        omega
      · exact lookup_not_mem_hms_erase hnd hlook h
  · intro l1 j e hts hmark hfname
    have hrev : (l1 ++ [j]).reverse = j :: l1.reverse := by
      simp
    have hscan : jump_scan e (l1 ++ [j]).reverse (l1 ++ [j]).length = -1 := by
      rw [hrev]
      unfold jump_scan
      rw [if_pos hts, if_pos (by rw [hmark, hfname]; simp)]
    have hpos : marklist_insert_pos (l1 ++ [j]).length (-1) = -1 := by
      unfold marklist_insert_pos
      rw [if_neg (by omega : ¬ (0 : Int) < -1), if_neg (by omega : ¬ (-1 : Int) = 0)]
    simp only [srww_insert_jump, hscan, hpos, if_true]

/-- Witness for the amended C1 at concrete inputs. -/
theorem newest_wins_amended_witness :
    compare_with_entry (⟨⟨5, 10, 0⟩, false⟩ : PossiblyFreedShadaEntry Nat) ⟨5, 20, 1⟩
      = ⟨⟨5, 20, 1⟩, true⟩
    ∧ compare_with_entry (⟨⟨5, 10, 0⟩, false⟩ : PossiblyFreedShadaEntry Nat) ⟨5, 10, 1⟩
      = ⟨⟨5, 10, 0⟩, false⟩
    ∧ hms_insert_core 3 [⟨⟨7, "cmd"⟩, true⟩] ⟨7, "cmd"⟩ false false
      = [⟨⟨7, "cmd"⟩, false⟩]
    ∧ (⟨⟨9, "cmd"⟩, true⟩ : HMLLNode) ∈ hms_insert_core 3 [⟨⟨7, "cmd"⟩, true⟩]
        ⟨9, "cmd"⟩ true true
    ∧ (⟨⟨7, "cmd"⟩, true⟩ : HMLLNode) ∉ hms_insert_core 3 [⟨⟨7, "cmd"⟩, true⟩]
        ⟨9, "cmd"⟩ true true
    ∧ srww_insert_jump [⟨⟨8, 10, ⟨0, ⟨3, 0⟩, "g"⟩⟩, false⟩] ⟨8, 12, ⟨0, ⟨3, 0⟩, "g"⟩⟩
      = [⟨⟨8, 10, ⟨0, ⟨3, 0⟩, "g"⟩⟩, false⟩] := by
  refine ⟨newest_wins_amended.1 Nat _ _ (by decide),
    newest_wins_amended.2.1 Nat _ _ (by decide) (by decide),
    ((newest_wins_amended.2.2.1 3 [⟨⟨7, "cmd"⟩, true⟩] ⟨⟨7, "cmd"⟩, true⟩ ⟨7, "cmd"⟩
      (by decide) rfl).1).trans (by decide),
    (newest_wins_amended.2.2.2.1 3 [⟨⟨7, "cmd"⟩, true⟩] ⟨⟨7, "cmd"⟩, true⟩ ⟨9, "cmd"⟩
      true (by decide) (by decide) (by decide)).1,
    (newest_wins_amended.2.2.2.1 3 [⟨⟨7, "cmd"⟩, true⟩] ⟨⟨7, "cmd"⟩, true⟩ ⟨9, "cmd"⟩
      true (by decide) (by decide) (by decide)).2,
    newest_wins_amended.2.2.2.2 [] ⟨⟨8, 10, ⟨0, ⟨3, 0⟩, "g"⟩⟩, false⟩
      ⟨8, 12, ⟨0, ⟨3, 0⟩, "g"⟩⟩ (by decide) (by decide) rfl⟩

/-- C5 counterexample: a new entry older than every existing entry in a
full ring is NOT dropped.  hmll_insert (shada.c:487-493) always removes the
first (oldest) node when the list is full and then splices the new node in
- here at the front.  Concretely: a full ring of size 2 holding "a"@10 and
"b"@20 after inserting "c"@5 becomes ["c"@5, "b"@20], not the unchanged
ring the claim requires. -/
theorem history_overflow_drop_counterexample :
    hms_insert_core 2 [⟨⟨10, "a"⟩, true⟩, ⟨⟨20, "b"⟩, true⟩] ⟨5, "c"⟩ true true
      = [⟨⟨5, "c"⟩, true⟩, ⟨⟨20, "b"⟩, true⟩]
    ∧ hms_insert_core 2 [⟨⟨10, "a"⟩, true⟩, ⟨⟨20, "b"⟩, true⟩] ⟨5, "c"⟩ true true
      ≠ [⟨⟨10, "a"⟩, true⟩, ⟨⟨20, "b"⟩, true⟩] := by
  constructor
  · rfl
  · decide

/-- C5 amended: History ring overflow rule: when the ring is full,
inserting an entry with a new string always evicts the oldest entry
(first): the ring stays at capacity, the new entry is present and the old
first node is gone.  In particular, when the new entry's timestamp is older
than every existing entry, it is NOT dropped: the oldest entry is still
evicted and the new entry becomes the new first element. -/
theorem history_overflow_amended :
    (∀ (size : Nat) (h : HMLLNode) (t : List HMLLNode) (e : HistData)
        (do_it cf : Bool),
        (h :: t).length = size →
        ((h :: t).map (fun n => n.data.hstring)).Nodup →
        e.hstring ∉ (h :: t).map (fun n => n.data.hstring) →
        (hms_insert_core size (h :: t) e do_it cf).length = size
        ∧ (⟨e, cf⟩ : HMLLNode) ∈ hms_insert_core size (h :: t) e do_it cf
        ∧ h ∉ hms_insert_core size (h :: t) e do_it cf)
    ∧ (∀ (size : Nat) (h : HMLLNode) (t : List HMLLNode) (e : HistData)
        (do_it cf : Bool),
        (h :: t).length = size →
        e.hstring ∉ (h :: t).map (fun n => n.data.hstring) →
        (∀ x ∈ h :: t, e.timestamp < x.data.timestamp) →
        hms_insert_core size (h :: t) e do_it cf = ⟨e, cf⟩ :: t) := by
  constructor
  · intro size h t e do_it cf hfull hnd hfresh
    have hcore : hms_insert_core size (h :: t) e do_it cf
        = hmll_insert size (h :: t) (hmll_find_insert_after (h :: t) e.timestamp)
            e cf := by
      simp only [hms_insert_core, hms_lookup_none hfresh]
    rw [hcore]
    have hins : hmll_insert size (h :: t)
        (hmll_find_insert_after (h :: t) e.timestamp) e cf
        = hmll_insert_at t
            (match hmll_find_insert_after (h :: t) e.timestamp with
             | some 0 => none
             | some (i + 1) => some i
             | none => none) ⟨e, cf⟩ := by
      unfold hmll_insert
      rw [if_pos hfull]
      rfl
    rw [hins]
    refine ⟨?_, ?_, ?_⟩
    · rw [length_hmll_insert_at]
      simp only [List.length_cons] at hfull
      omega
    · exact mem_hmll_insert_at_self _ _ _
    · intro hmem
      rcases mem_of_mem_hmll_insert_at hmem with hh | hh
      · apply hfresh
        have hhs : h.data.hstring = e.hstring := by rw [hh]
        rw [← hhs]
        exact List.mem_map_of_mem _ (List.mem_cons_self h t)
      · simp only [List.map_cons, List.nodup_cons] at hnd
        exact hnd.1 (List.mem_map_of_mem _ hh)
  · intro size h t e do_it cf hfull hfresh hall
    have hcore : hms_insert_core size (h :: t) e do_it cf
        = hmll_insert size (h :: t) (hmll_find_insert_after (h :: t) e.timestamp)
            e cf := by
      simp only [hms_insert_core, hms_lookup_none hfresh]
    rw [hcore, hmll_find_insert_after_none hall]
    unfold hmll_insert
    rw [if_pos hfull]
    rfl

/-- Witness for the amended C5 at a concrete input: the full size-2 ring
["a"@10, "b"@20]; inserting "c"@5 evicts "a" and yields ["c"@5, "b"@20]. -/
theorem history_overflow_amended_witness :
    ((hms_insert_core 2 [⟨⟨10, "a"⟩, true⟩, ⟨⟨20, "b"⟩, true⟩]
        ⟨5, "c"⟩ true true).length = 2
      ∧ (⟨⟨5, "c"⟩, true⟩ : HMLLNode) ∈ hms_insert_core 2
          [⟨⟨10, "a"⟩, true⟩, ⟨⟨20, "b"⟩, true⟩] ⟨5, "c"⟩ true true
      ∧ (⟨⟨10, "a"⟩, true⟩ : HMLLNode) ∉ hms_insert_core 2
          [⟨⟨10, "a"⟩, true⟩, ⟨⟨20, "b"⟩, true⟩] ⟨5, "c"⟩ true true)
    ∧ hms_insert_core 2 [⟨⟨10, "a"⟩, true⟩, ⟨⟨20, "b"⟩, true⟩] ⟨5, "c"⟩ true true
        = [⟨⟨5, "c"⟩, true⟩, ⟨⟨20, "b"⟩, true⟩] :=
  ⟨history_overflow_amended.1 2 ⟨⟨10, "a"⟩, true⟩ [⟨⟨20, "b"⟩, true⟩] ⟨5, "c"⟩
      true true (by decide) (by decide) (by decide),
   history_overflow_amended.2 2 ⟨⟨10, "a"⟩, true⟩ [⟨⟨20, "b"⟩, true⟩] ⟨5, "c"⟩
      true true (by decide) (by decide) (by decide)⟩

/-- C6 counterexample: the register line-count cap does NOT apply on read.
The kSDItemRegister branch of shada_read (shada.c:1058-1083) checks only
the motion type and the newest-wins comparison - it never consults the
max_reg_lines option (the model shada_read_register has no cap parameter at
all, faithfully to the source).  Concretely, with the option cap at 2: a
file record for a register with 3 content lines (timestamp 5, linewise) is
installed over an older editor register (timestamp 1), even though
3 exceeds the cap 2 - the record is not "skipped entirely" as claimed. -/
theorem register_read_cap_counterexample :
    shada_read_register false (some ⟨1, 1⟩) kMTLineWise 3 5 = some ⟨3, 5⟩
    ∧ (2 : Nat) < 3 := by
  constructor
  · rfl
  · decide

/-- C6 amended: the register line-count cap applies when the editor's
registers are snapshotted for WRITING: shadaInitializeRegisters skips
every editor register whose line count exceeds a non-negative
max_reg_lines, so every stored register respects the cap.  On READ no line
cap is applied: a Register record with a valid motion type that wins the
newest-wins comparison is installed whatever its line count. -/
theorem register_cap_amended :
    (∀ (regs : List EditorReg) (cap : Int) (r : EditorReg),
        r ∈ shadaInitializeRegisters regs cap → 0 ≤ cap → (r.y_size : Int) ≤ cap)
    ∧ (∀ (force : Bool) (y : YankRegModel) (rtype cs ts : Nat),
        (rtype = kMTCharWise ∨ rtype = kMTLineWise ∨ rtype = kMTBlockWise) →
        y.timestamp < ts →
        shada_read_register force (some y) rtype cs ts = some ⟨cs, ts⟩) := by
  constructor
  · intro regs cap r hr hcap
    unfold shadaInitializeRegisters at hr
    obtain ⟨-, hp⟩ := List.mem_filter.mp hr
    simp only [Bool.not_eq_true', Bool.and_eq_false_iff, decide_eq_false_iff_not,
      not_le, not_lt] at hp
    rcases hp with hp | hp
    · omega
    · exact hp
  · intro force y rtype cs ts hvalid hts
    have hv : ¬ (rtype ≠ kMTCharWise ∧ rtype ≠ kMTLineWise ∧ rtype ≠ kMTBlockWise) := by
      rcases hvalid with h | h | h <;> simp [h]
    unfold shada_read_register
    rw [if_neg hv]
    cases force with
    | true => rfl
    | false =>
      simp only
      rw [if_neg (by omega : ¬ ts ≤ y.timestamp)]
      rfl

/-- Witness for the amended C6 at concrete inputs: with cap 2 a 3-line
editor register is not stored for writing, and on read a 3-line record
newer than the editor's register is installed. -/
theorem register_cap_amended_witness :
    (∀ r ∈ shadaInitializeRegisters [⟨97, 3, 5⟩] 2, (r.y_size : Int) ≤ 2)
    ∧ shada_read_register false (some ⟨1, 1⟩) kMTCharWise 3 5 = some ⟨3, 5⟩ :=
  ⟨fun r hr => register_cap_amended.1 [⟨97, 3, 5⟩] 2 r hr (by decide),
   register_cap_amended.2 false ⟨1, 1⟩ kMTCharWise 3 5 (Or.inl rfl) (by decide)⟩

theorem rename_numbered_from_length (idx stop : Nat) :
    ∀ (l : List (PossiblyFreedShadaEntry FilemarkData)) (i0 : Nat),
      (rename_numbered_from idx stop l i0).length = l.length := by
  intro l
  induction l with
  | nil => intro i0; rfl
  | cons m ms ih =>
    intro i0
    simp only [rename_numbered_from, List.length_cons, ih (i0 + 1)]

theorem rename_numbered_from_get (idx stop : Nat) :
    ∀ (l : List (PossiblyFreedShadaEntry FilemarkData)) (i0 k : Nat),
      (rename_numbered_from idx stop l i0).get? k
        = (l.get? k).map (fun m =>
            if idx ≤ i0 + k ∧ i0 + k < stop ∧ m.data.etype = kSDItemGlobalMark
            then set_filemark_name m (48 + (i0 + k) + 1) else m) := by
  intro l
  induction l with
  | nil => intro i0 k; rfl
  | cons m ms ih =>
    intro i0 k
    cases k with
    | zero =>
      simp only [rename_numbered_from, List.get?_cons_zero, Nat.add_zero]
      rfl
    | succ k =>
      simp only [rename_numbered_from, List.get?_cons_succ]
      rw [ih (i0 + 1) k]
      have harith : i0 + 1 + k = i0 + (k + 1) := by omega
      rw [harith]

/-- C7: Numbered-mark rotation: inserting a new numbered global mark at
slot 0 of the full 10-slot numbered-mark array drops the entry of slot 9,
shifts each slot i (0 <= i <= 8) to slot i+1 renaming its mark to the digit
of i+1, and stores the new mark in slot 0 named '0' (character code 48)
(replace_numbered_mark, shada.c:2190-2207). -/
theorem numbered_mark_rotation :
    ∀ (marks : List (PossiblyFreedShadaEntry FilemarkData))
      (e : PossiblyFreedShadaEntry FilemarkData),
      marks.length = 10 →
      (∀ m ∈ marks, m.data.etype = kSDItemGlobalMark) →
      (replace_numbered_mark marks 0 e).length = 10
      ∧ (replace_numbered_mark marks 0 e).get? 0 = some (set_filemark_name e 48)
      ∧ ∀ i, i < 9 →
          (replace_numbered_mark marks 0 e).get? (i + 1)
            = (marks.get? i).map (fun m => set_filemark_name m (48 + i + 1)) := by
  intro marks e hlen hall
  have hres : replace_numbered_mark marks 0 e
      = set_filemark_name e 48
          :: (rename_numbered_from 0 9 marks 0).take 9 := by
    unfold replace_numbered_mark
    rw [hlen]
    rfl
  rw [hres]
  refine ⟨?_, rfl, ?_⟩
  · simp only [List.length_cons, List.length_take,
      rename_numbered_from_length 0 9 marks 0, hlen]
    omega
  · intro i hi
    rw [List.get?_cons_succ, List.get?_take hi, rename_numbered_from_get 0 9 marks 0 i]
    cases hm : marks.get? i with
    | none => rfl
    | some m =>
      have hmem : m ∈ marks := List.get?_mem hm
      simp only [Option.map, Nat.zero_add]
      rw [if_pos (⟨Nat.zero_le i, hi, hall m hmem⟩ :
        0 ≤ i ∧ i < 9 ∧ m.data.etype = kSDItemGlobalMark)]

/-- Witness for C7 at a concrete input: a full array of ten global marks
named '0'..'9' and a new mark; the rotation stores the new mark at slot 0
and shifts/renames the rest. -/
theorem numbered_mark_rotation_witness :
    (replace_numbered_mark
        (((List.range 10).map (fun i =>
          (⟨⟨7, 100 - i, ⟨48 + i, ⟨1, 0⟩, "f"⟩⟩, false⟩ :
            PossiblyFreedShadaEntry FilemarkData)))) 0
        ⟨⟨7, 200, ⟨48, ⟨9, 2⟩, "g"⟩⟩, false⟩).length = 10
    ∧ (replace_numbered_mark
        (((List.range 10).map (fun i =>
          (⟨⟨7, 100 - i, ⟨48 + i, ⟨1, 0⟩, "f"⟩⟩, false⟩ :
            PossiblyFreedShadaEntry FilemarkData)))) 0
        ⟨⟨7, 200, ⟨48, ⟨9, 2⟩, "g"⟩⟩, false⟩).get? 0
        = some (set_filemark_name ⟨⟨7, 200, ⟨48, ⟨9, 2⟩, "g"⟩⟩, false⟩ 48)
    ∧ ∀ i, i < 9 →
        (replace_numbered_mark
          (((List.range 10).map (fun i =>
            (⟨⟨7, 100 - i, ⟨48 + i, ⟨1, 0⟩, "f"⟩⟩, false⟩ :
              PossiblyFreedShadaEntry FilemarkData)))) 0
          ⟨⟨7, 200, ⟨48, ⟨9, 2⟩, "g"⟩⟩, false⟩).get? (i + 1)
          = ((((List.range 10).map (fun i =>
              (⟨⟨7, 100 - i, ⟨48 + i, ⟨1, 0⟩, "f"⟩⟩, false⟩ :
                PossiblyFreedShadaEntry FilemarkData)))).get? i).map
              (fun m => set_filemark_name m (48 + i + 1)) :=
  numbered_mark_rotation _ ⟨⟨7, 200, ⟨48, ⟨9, 2⟩, "g"⟩⟩, false⟩ (by decide)
    (by decide)

end Shada

